import Mathlib

/-!
Shallow embedding of the field-extraction core of `app.py` (PIPE demand-letter
service) and proofs about it.

Modelling conventions:
* Python strings are `String` / `List Char`; only ASCII text is modelled
  (the service consumes ASCII CSV and agreement text).
* Python `float` arithmetic is idealised as exact rational arithmetic (`ℚ`);
  `f"{x:,.2f}"` / `f"{x:.2f}"` formatting rounds half-to-even on the exact
  value, matching the float formatting on every value appearing here.
* Fallible Python code (raising + `except`) is modelled with `Option`.
Each definition is translated from the function of the same name in
`src/app.py`; helper names not present in the source are lower-level pieces
of those translations.
-/

/-! ### Character primitives -/

/-- The whitespace characters stripped by the Python `str.strip()` default. -/
def pyIsSpace (c : Char) : Bool :=
  c = ' ' || c = '\t' || c = '\n' || c = '\r' || c = '\x0b' || c = '\x0c'

/-- ASCII lowercasing, modelling `str.lower` on ASCII text. -/
def lowerc (c : Char) : Char :=
  if c = 'A' then 'a' else if c = 'B' then 'b' else if c = 'C' then 'c'
  else if c = 'D' then 'd' else if c = 'E' then 'e' else if c = 'F' then 'f'
  else if c = 'G' then 'g' else if c = 'H' then 'h' else if c = 'I' then 'i'
  else if c = 'J' then 'j' else if c = 'K' then 'k' else if c = 'L' then 'l'
  else if c = 'M' then 'm' else if c = 'N' then 'n' else if c = 'O' then 'o'
  else if c = 'P' then 'p' else if c = 'Q' then 'q' else if c = 'R' then 'r'
  else if c = 'S' then 's' else if c = 'T' then 't' else if c = 'U' then 'u'
  else if c = 'V' then 'v' else if c = 'W' then 'w' else if c = 'X' then 'x'
  else if c = 'Y' then 'y' else if c = 'Z' then 'z' else c

/-- The decimal digit character for `n < 10`. -/
def digitChar : Nat → Char
  | 0 => '0' | 1 => '1' | 2 => '2' | 3 => '3' | 4 => '4'
  | 5 => '5' | 6 => '6' | 7 => '7' | 8 => '8' | _ => '9'

/-- Numeric value of a decimal digit character. -/
def dval (c : Char) : Nat :=
  if c = '1' then 1 else if c = '2' then 2 else if c = '3' then 3
  else if c = '4' then 4 else if c = '5' then 5 else if c = '6' then 6
  else if c = '7' then 7 else if c = '8' then 8 else if c = '9' then 9 else 0

def dropSpaces : List Char → List Char
  | [] => []
  | c :: rest => if pyIsSpace c then dropSpaces rest else c :: rest

/-- `str.strip()`: remove leading and trailing whitespace. -/
def pyStrip (l : List Char) : List Char :=
  (dropSpaces (dropSpaces l).reverse).reverse

/-- String-level `str.strip()`. -/
def pyStripS (s : String) : String :=
  String.mk (pyStrip s.data)

def mapLower : List Char → List Char
  | [] => []
  | c :: rest => lowerc c :: mapLower rest

/-! ### Decimal digit strings -/

def takeDigits : List Char → List Char
  | [] => []
  | c :: rest => if c.isDigit then c :: takeDigits rest else []

def dropDigits : List Char → List Char
  | [] => []
  | c :: rest => if c.isDigit then dropDigits rest else c :: rest

def allDigits : List Char → Bool
  | [] => true
  | c :: rest => c.isDigit && allDigits rest

/-- Value of a decimal digit string, accumulator style (`int` of the digits). -/
def digitsValA : List Char → Nat → Nat
  | [], a => a
  | c :: rest, a => digitsValA rest (a * 10 + dval c)

/-- Decimal rendering of a natural number, fuel-indexed so that it is
structurally recursive (the fuel `n + 1` always suffices). -/
def natCharsF : Nat → Nat → List Char
  | 0, _ => []
  | fuel + 1, n =>
    if n < 10 then [digitChar n] else natCharsF fuel (n / 10) ++ [digitChar (n % 10)]

/-- Decimal rendering of a natural number (no padding, no separators). -/
def natChars (n : Nat) : List Char := natCharsF (n + 1) n

/-- Two-digit zero-padded rendering (for `%02d`-style fields, `n < 100`). -/
def pad2c (n : Nat) : List Char := [digitChar (n / 10), digitChar (n % 10)]

/-- Insert a thousands separator after every third character of a reversed
digit string. -/
def group3 : List Char → List Char
  | a :: b :: c :: d :: rest => a :: b :: c :: ',' :: group3 (d :: rest)
  | l => l

/-- Insert thousands separators into a digit string. -/
def withCommas (l : List Char) : List Char := (group3 l.reverse).reverse

/-! ### Python float parsing and formatting -/

/-- The characters kept by `CURRENCY_RE.sub("", s)` (`CURRENCY_RE` removes
every character outside `[0-9.\-]`, `src/app.py` line 28). -/
def keepMoneyChar (c : Char) : Bool := c.isDigit || c = '.' || c = '-'

/-- `CURRENCY_RE.sub("", s)`: strip every character outside `[0-9.\-]`. -/
def CURRENCY_RE_sub : List Char → List Char
  | [] => []
  | c :: rest =>
    if keepMoneyChar c then c :: CURRENCY_RE_sub rest else CURRENCY_RE_sub rest

/-- Python `float(...)` on an unsigned string over digits and dots:
digits with at most one dot and at least one digit, else failure.  The
residue after the leading digit run must be empty, or a dot followed by
digits only (with at least one digit overall). -/
def pyFloatPos (body : List Char) : Option ℚ :=
  if dropDigits body = [] then
    if body.isEmpty then none else some (digitsValA body 0 : ℚ)
  else if (dropDigits body).headD ' ' = '.' then
    if allDigits (dropDigits body).tail ∧
        (¬(takeDigits body).isEmpty ∨ ¬(dropDigits body).tail.isEmpty) then
      some ((digitsValA (takeDigits body) 0 : ℚ) +
        (digitsValA (dropDigits body).tail 0 : ℚ) / (10 : ℚ) ^ (dropDigits body).tail.length)
    else none
  else none

/-- Python `float(...)` on the residue of `CURRENCY_RE.sub` (characters drawn
from digits, `.` and `-`): an optional leading minus sign, then an unsigned
decimal number.  Returns `none` where Python raises `ValueError`. -/
def pyFloat (l : List Char) : Option ℚ :=
  match l with
  | [] => none
  | c :: rest =>
    if c = '-' then
      match pyFloatPos rest with
      | some q => some (-q)
      | none => none
    else pyFloatPos (c :: rest)

/-- Round half to even to an integer (the rounding used by Python float
formatting, on the exact values appearing in this development). -/
def rhe (q : ℚ) : ℤ :=
  if q - ⌊q⌋ < 1 / 2 then ⌊q⌋
  else if 1 / 2 < q - ⌊q⌋ then ⌊q⌋ + 1
  else if 2 ∣ ⌊q⌋ then ⌊q⌋ else ⌊q⌋ + 1

/-- Digits of `f"{x:,.2f}"` for a magnitude of `c` cents: thousands
separators on the integer part, a dot, exactly two fraction digits. -/
def moneyDigits (c : Nat) : List Char :=
  withCommas (natChars (c / 100)) ++ '.' :: pad2c (c % 100)

/-- `f"${f:,.2f}"`: dollar sign, sign, thousands separators, exactly two
fraction digits. -/
def moneyDisplay (q : ℚ) : String :=
  String.mk ('$' :: (if q < 0 then ['-'] else []) ++ moneyDigits (rhe (|q| * 100)).toNat)

/-! ### `parse_money` (src/app.py lines 65-77) -/

/-- `parse_money(val)`: `(None, "")` on empty/absent input, otherwise strip
everything outside `[0-9.\-]` and parse as a base-10 float; on success return
the value and its `$`-formatted display, on failure `(None, original)`. -/
def parse_money (val : Option String) : Option ℚ × String :=
  match val with
  | none => (none, "")
  | some s =>
    if s = "" then (none, "")
    else
      match pyFloat (CURRENCY_RE_sub s.data) with
      | some f => (some f, moneyDisplay f)
      | none => (none, s)

/-- `money(val)`: the display component of `parse_money`. -/
def money (val : Option String) : String := (parse_money val).2

/-! ### `normalize_rr` (src/app.py lines 79-89) -/

/-- Value of the first match of the regex `(\d+(?:\.\d+)?)`: maximal digit
run, optionally followed by a dot and a further nonempty maximal digit run.
The pattern has no sign, so the value is always nonnegative. -/
def readNum (l : List Char) : ℚ :=
  match dropDigits l with
  | c :: rest =>
    if c = '.' ∧ (rest.headD ' ').isDigit then
      (digitsValA (takeDigits l) 0 : ℚ) +
        (digitsValA (takeDigits rest) 0 : ℚ) / (10 : ℚ) ^ (takeDigits rest).length
    else (digitsValA (takeDigits l) 0 : ℚ)
  | [] => (digitsValA (takeDigits l) 0 : ℚ)

/-- `re.search(r"(\d+(?:\.\d+)?)", s)`: value of the leftmost decimal-number
substring, or `none` when the string has no digit. -/
def firstNumber : List Char → Option ℚ
  | [] => none
  | c :: rest => if c.isDigit then some (readNum (c :: rest)) else firstNumber rest

/-- Digits of `f"{x:.2f}".rstrip("0").rstrip(".")` for a magnitude of `c`
cents: the trailing `0` strip drops a zero second decimal, then a zero first
decimal, and the `.` strip drops the then-dangling dot. -/
def fmtRRn (c : Nat) : List Char :=
  if c % 100 = 0 then natChars (c / 100)
  else if c % 10 = 0 then natChars (c / 100) ++ ['.', digitChar (c % 100 / 10)]
  else natChars (c / 100) ++ ['.', digitChar (c % 100 / 10), digitChar (c % 10)]

/-- `f"{f:.2f}".rstrip("0").rstrip(".")` for `0 ≤ f`: two-decimal rendering
with trailing zeros and a trailing dot removed. -/
def fmtRR (f : ℚ) : List Char := fmtRRn (rhe (f * 100)).toNat

/-- `normalize_rr(rr)`: empty input gives `""`; input without a digit is
returned unchanged; otherwise the first decimal-number substring is clamped
into `[0, 100]`, rendered with up to two decimals, and `%` is appended. -/
def normalize_rr (rr : String) : String :=
  if rr = "" then ""
  else
    match firstNumber rr.data with
    | none => rr
    | some f =>
      String.mk (fmtRR (if f < 0 then 0 else if 100 < f then 100 else f) ++ ['%'])

/-! ### Date parsing (`norm_date` lines 34-46, `parse_date_any` lines 48-63)

Python `datetime.strptime` compiles each format to a regex
(whitespace in the format becomes `\s+`, `%b` the case-insensitive month
abbreviations, `%d` is `3[01]|[12]\d|0[1-9]|[1-9]`, `%m` is
`1[0-2]|0[1-9]|[1-9]`, `%Y` is `\d\d\d\d`), requires the regex to consume the
whole string, and then builds a `datetime`, which additionally validates the
day against the month length.  The parsers below mirror that, including the
regex fallback from a two-digit numeric field to its one-digit alternative
when the rest of the pattern fails. -/

structure PyDate where
  y : Nat
  m : Nat
  d : Nat
deriving DecidableEq

/-- Case-insensitive month-abbreviation lookup (`%b`), on lowercased chars. -/
def monFromAbbr (a b c : Char) : Option Nat :=
  if a = 'j' ∧ b = 'a' ∧ c = 'n' then some 1
  else if a = 'f' ∧ b = 'e' ∧ c = 'b' then some 2
  else if a = 'm' ∧ b = 'a' ∧ c = 'r' then some 3
  else if a = 'a' ∧ b = 'p' ∧ c = 'r' then some 4
  else if a = 'm' ∧ b = 'a' ∧ c = 'y' then some 5
  else if a = 'j' ∧ b = 'u' ∧ c = 'n' then some 6
  else if a = 'j' ∧ b = 'u' ∧ c = 'l' then some 7
  else if a = 'a' ∧ b = 'u' ∧ c = 'g' then some 8
  else if a = 's' ∧ b = 'e' ∧ c = 'p' then some 9
  else if a = 'o' ∧ b = 'c' ∧ c = 't' then some 10
  else if a = 'n' ∧ b = 'o' ∧ c = 'v' then some 11
  else if a = 'd' ∧ b = 'e' ∧ c = 'c' then some 12
  else none

/-- Match `%b` at the head of the input. -/
def monAbbrAt : List Char → Option (Nat × List Char)
  | a :: b :: c :: rest =>
    match monFromAbbr (lowerc a) (lowerc b) (lowerc c) with
    | some m => some (m, rest)
    | none => none
  | _ => none

/-- Match `\s+` (one or more whitespace characters, maximal munch). -/
def wsPlus : List Char → Option (List Char)
  | c :: rest => if pyIsSpace c then some (dropSpaces rest) else none
  | [] => none

/-- Match one literal character. -/
def lit (ch : Char) : List Char → Option (List Char)
  | c :: rest => if c = ch then some rest else none
  | [] => none

/-- Match the two-digit alternatives of a numeric field whose two-digit
values range over `[lo, hi]` (for `%d`: `3[01]|[12]\d|0[1-9]`, i.e. 01-31;
for `%m`: `1[0-2]|0[1-9]`, i.e. 01-12). -/
def num2 (lo hi : Nat) : List Char → Option (Nat × List Char)
  | a :: b :: rest =>
    if a.isDigit ∧ b.isDigit ∧ lo ≤ dval a * 10 + dval b ∧ dval a * 10 + dval b ≤ hi then
      some (dval a * 10 + dval b, rest)
    else none
  | _ => none

/-- Match the one-digit alternative `[1-9]` of `%d` / `%m`. -/
def num1 : List Char → Option (Nat × List Char)
  | a :: rest => if a.isDigit ∧ 1 ≤ dval a then some (dval a, rest) else none
  | [] => none

/-- Match `%Y`: exactly four digits. -/
def year4 : List Char → Option (Nat × List Char)
  | a :: b :: c :: d :: rest =>
    if a.isDigit ∧ b.isDigit ∧ c.isDigit ∧ d.isDigit then
      some (((dval a * 10 + dval b) * 10 + dval c) * 10 + dval d, rest)
    else none
  | _ => none

/-- Regex alternation for a numeric field: try the two-digit alternatives
first; if the continuation of the pattern fails, fall back to the one-digit
alternative `[1-9]` (regex backtracking). -/
def withNum (two : List Char → Option (Nat × List Char)) (l : List Char)
    (k : Nat → List Char → Option PyDate) : Option PyDate :=
  match two l with
  | some (n, r) =>
    match k n r with
    | some v => some v
    | none =>
      match num1 l with
      | some (n1, r1) => k n1 r1
      | none => none
  | none =>
    match num1 l with
    | some (n1, r1) => k n1 r1
    | none => none

/-- Full match of the format `"%b %d %Y"`. -/
def parseFmt1 (l : List Char) : Option PyDate :=
  (monAbbrAt l).bind fun mp =>
  (wsPlus mp.2).bind fun l2 =>
  withNum (num2 1 31) l2 fun d l3 =>
  (wsPlus l3).bind fun l4 =>
  (year4 l4).bind fun yp =>
  if yp.2 = [] then some ⟨yp.1, mp.1, d⟩ else none

/-- Full match of the format `"%b %d, %Y"`. -/
def parseFmt2 (l : List Char) : Option PyDate :=
  (monAbbrAt l).bind fun mp =>
  (wsPlus mp.2).bind fun l2 =>
  withNum (num2 1 31) l2 fun d l3 =>
  (lit ',' l3).bind fun l4 =>
  (wsPlus l4).bind fun l5 =>
  (year4 l5).bind fun yp =>
  if yp.2 = [] then some ⟨yp.1, mp.1, d⟩ else none

/-- Full match of the format `"%m %d %Y"`. -/
def parseFmt3 (l : List Char) : Option PyDate :=
  withNum (num2 1 12) l fun m l1 =>
  (wsPlus l1).bind fun l2 =>
  withNum (num2 1 31) l2 fun d l3 =>
  (wsPlus l3).bind fun l4 =>
  (year4 l4).bind fun yp =>
  if yp.2 = [] then some ⟨yp.1, m, d⟩ else none

/-- Full match of the format `"%m/%d/%Y"`. -/
def parseFmt4 (l : List Char) : Option PyDate :=
  withNum (num2 1 12) l fun m l1 =>
  (lit '/' l1).bind fun l2 =>
  withNum (num2 1 31) l2 fun d l3 =>
  (lit '/' l3).bind fun l4 =>
  (year4 l4).bind fun yp =>
  if yp.2 = [] then some ⟨yp.1, m, d⟩ else none

/-- Full match of the format `"%Y-%m-%d"`. -/
def parseFmt5 (l : List Char) : Option PyDate :=
  (year4 l).bind fun yp =>
  (lit '-' yp.2).bind fun l2 =>
  withNum (num2 1 12) l2 fun m l3 =>
  (lit '-' l3).bind fun l4 =>
  withNum (num2 1 31) l4 fun d l5 =>
  if l5 = [] then some ⟨yp.1, m, d⟩ else none

/-- Python (Gregorian, proleptic) leap-year rule. -/
def pyLeap (y : Nat) : Bool := y % 4 = 0 && (y % 100 != 0 || y % 400 = 0)

def daysInMonth (y m : Nat) : Nat :=
  if m = 2 then (if pyLeap y then 29 else 28)
  else if m = 4 ∨ m = 6 ∨ m = 9 ∨ m = 11 then 30
  else 31

/-- The validity check performed by the `datetime` constructor. -/
def validDate (dt : PyDate) : Prop :=
  1 ≤ dt.y ∧ dt.y ≤ 9999 ∧ 1 ≤ dt.m ∧ dt.m ≤ 12 ∧ 1 ≤ dt.d ∧ dt.d ≤ daysInMonth dt.y dt.m

instance (dt : PyDate) : Decidable (validDate dt) := by
  unfold validDate; infer_instance

/-- `datetime.strptime` raises (caught by the caller) when the regex matched
but the date is invalid. -/
def chk : Option PyDate → Option PyDate
  | some dt => if validDate dt then some dt else none
  | none => none

/-- Try the five formats in the fixed priority order, first success wins. -/
def normDateCore (l : List Char) : Option PyDate :=
  match chk (parseFmt1 l) with
  | some r => some r
  | none =>
    match chk (parseFmt2 l) with
    | some r => some r
    | none =>
      match chk (parseFmt3 l) with
      | some r => some r
      | none =>
        match chk (parseFmt4 l) with
        | some r => some r
        | none => chk (parseFmt5 l)

/-- `strftime("%b ...")` month abbreviation. -/
def monAbbrChars (m : Nat) : List Char :=
  if m = 1 then ['J', 'a', 'n'] else if m = 2 then ['F', 'e', 'b']
  else if m = 3 then ['M', 'a', 'r'] else if m = 4 then ['A', 'p', 'r']
  else if m = 5 then ['M', 'a', 'y'] else if m = 6 then ['J', 'u', 'n']
  else if m = 7 then ['J', 'u', 'l'] else if m = 8 then ['A', 'u', 'g']
  else if m = 9 then ['S', 'e', 'p'] else if m = 10 then ['O', 'c', 't']
  else if m = 11 then ['N', 'o', 'v'] else ['D', 'e', 'c']

/-- `dt.strftime("%b %d, %Y")`: abbreviated month, zero-padded day, comma,
year (unpadded decimal; four digits for every year in `[1000, 9999]`). -/
def formatDateChars (dt : PyDate) : List Char :=
  monAbbrChars dt.m ++ ' ' :: pad2c dt.d ++ ',' :: ' ' :: natChars dt.y

/-- `norm_date(s, default="")`: normalize many common date inputs to
`"%b %d, %Y"`; empty input gives the default, unparseable input is returned
in stripped form. -/
def norm_date (s : String) (dflt : String := "") : String :=
  if s = "" then dflt
  else
    match normDateCore (pyStrip s.data) with
    | some dt => String.mk (formatDateChars dt)
    | none => String.mk (pyStrip s.data)

/-- `s.replace(",", "")`. -/
def dropCommas : List Char → List Char
  | [] => []
  | c :: rest => if c = ',' then dropCommas rest else c :: dropCommas rest

/-- `parse_date_any(s)`: the five formats in order, then a fallback that
strips commas and retries `"%b %d %Y"`; `none` when everything fails. -/
def parse_date_any (s : String) : Option PyDate :=
  if s = "" then none
  else
    match normDateCore (pyStrip s.data) with
    | some dt => some dt
    | none => chk (parseFmt1 (dropCommas (pyStrip s.data)))

/-- Comparison of `datetime.date` values (lexicographic). -/
def dateLt (a b : PyDate) : Bool :=
  if a.y < b.y then true else if b.y < a.y then false
  else if a.m < b.m then true else if b.m < a.m then false
  else decide (a.d < b.d)

/-! ### CSV header canonicalization (src/app.py lines 386-403) -/

def isLowerAlnum (c : Char) : Bool := ('a' ≤ c && c ≤ 'z') || c.isDigit

/-- `re.sub(r"[^a-z0-9]+", "_", ...)`: collapse every maximal run of
characters outside `[a-z0-9]` to a single underscore.  The flag records
whether the previous character belonged to such a run. -/
def collapseRuns : Bool → List Char → List Char
  | _, [] => []
  | inRun, c :: rest =>
    if isLowerAlnum c then c :: collapseRuns false rest
    else if inRun then collapseRuns true rest
    else '_' :: collapseRuns true rest

/-- `_canonize(name)`: `re.sub(r"[^a-z0-9]+", "_", name.strip().lower())`. -/
def _canonize (name : String) : String :=
  String.mk (collapseRuns false (mapLower (pyStrip name.data)))

/-- `COLUMN_ALIASES.get(key, {key})` (lines 389-396, 399). -/
def COLUMN_ALIASES (key : String) : List String :=
  if key = "revenue_date" then ["revenue_date", "date", "payment_date"]
  else if key = "revenue" then ["revenue", "gross_revenue", "amount"]
  else if key = "collected" then ["collected", "pipe_collected", "to_pipe", "remitted"]
  else if key = "status" then ["status", "result"]
  else if key = "collection_date" then ["collection_date", "collected_date", "remit_date"]
  else if key = "method" then ["method", "payment_method"]
  else [key]

/-- `_find_col(mapping, key)`: first header (in header order) whose canonical
form belongs to the alias set of `key`.  The `mapping` dict of the source maps
each header to its canonical form in header order. -/
def _find_col : List String → String → Option String
  | [], _ => none
  | h :: rest, key =>
    if _canonize h ∈ COLUMN_ALIASES key then some h else _find_col rest key

/-! ### Statement aggregation (`statement_extract`, src/app.py lines 405-521)

The CSV machinery (`csv.DictReader`) is external I/O; a data row is modelled
as its four relevant cell strings (a cell of a column that is absent from the
CSV simply never matters, because the corresponding `col_*` variable is then
`None` and the code reads `""` instead).  `hasCollected` / `hasStatus` mirror
`col_collected` / `col_status` being found by `_find_col`; the two required
columns are present whenever the loop runs at all (lines 448-451). -/

def SUCCESS_STATUSES : List String :=
  ["succeeded", "paid", "completed", "posted", "captured", "success", "settled"]

/-- Letters kept by `re.sub(r"[^a-z]", "", ...)`. -/
def keepAlpha : List Char → List Char
  | [] => []
  | c :: rest => if 'a' ≤ c ∧ c ≤ 'z' then c :: keepAlpha rest else keepAlpha rest

/-- `str(cell or "").strip().lower()` followed by `re.sub(r"[^a-z]", "", ...)`. -/
def canonStatus (s : String) : String :=
  String.mk (keepAlpha (mapLower (pyStrip s.data)))

/-- `float(CURRENCY_RE.sub("", str(v))) if v not in (None, "") else 0.0`,
with `none` where the `float` call raises (caught by the per-row handler). -/
def moneyCellFloat (s : String) : Option ℚ :=
  if s = "" then some 0 else pyFloat (CURRENCY_RE_sub s.data)

structure StmtRow where
  rev_date : String
  revenue : String
  collected : String
  status : String

/-- The date filter of lines 460-461: the row is skipped when a filter date
is set, the date cell parses, and the row date is strictly earlier. -/
def rowSkipped (effDate : Option PyDate) (row : StmtRow) : Bool :=
  match effDate, parse_date_any row.rev_date with
  | some e, some dd => dateLt dd e
  | _, _ => false

/-- One iteration of the row loop (lines 457-484) on the accumulator
`(total_revenue, total_collected_success)`.  A raising `float` call aborts
the row (the `except: continue`), keeping whatever was already accumulated:
a malformed revenue cell leaves the row out entirely, a malformed collected
cell happens after `total_revenue` was already incremented. -/
def procRow (hasCollected hasStatus : Bool) (effDate : Option PyDate)
    (acc : ℚ × ℚ) (row : StmtRow) : ℚ × ℚ :=
  if rowSkipped effDate row then acc
  else
    match moneyCellFloat row.revenue with
    | none => acc
    | some rev =>
      match moneyCellFloat (if hasCollected then row.collected else "") with
      | none => (acc.1 + rev, acc.2)
      | some coll =>
        if canonStatus (if hasStatus then row.status else "") ∈ SUCCESS_STATUSES ∨
            (hasStatus = false ∧ 0 < coll) then
          (acc.1 + rev, acc.2 + coll)
        else (acc.1 + rev, acc.2)

/-- The row loop over the data rows. -/
def aggRows (hasCollected hasStatus : Bool) (effDate : Option PyDate) :
    ℚ × ℚ → List StmtRow → ℚ × ℚ
  | acc, [] => acc
  | acc, r :: rest => aggRows hasCollected hasStatus effDate
      (procRow hasCollected hasStatus effDate acc r) rest

/-- The fields of the `metrics` / `inputs_detected` response objects (lines
497-519); the `*_val` fields are the raw float intermediates from which the
displayed strings are rendered. -/
structure Metrics where
  total_revenue_val : ℚ
  successful_payments_val : ℚ
  total_revenue : String
  successful_payments : String
  rr_percent : Option String
  rr_amount_val : Option ℚ
  shortfall_val : Option ℚ
  rr_amount : Option String
  shortfall : Option String
  revenue_rows_processed : Nat
  effective_date_applied : Option String

/-- Lines 422-425: `effective_date_str = request.form.get(...).strip()` and
`eff_date = parse_date_any(effective_date_str) if effective_date_str else None`. -/
def effDateOf (effStr : String) : Option PyDate :=
  if pyStripS effStr = "" then none else parse_date_any (pyStripS effStr)

/-- Lines 423-426: `rr_percent_in = request.form.get(...).strip()` and
`rr_norm = normalize_rr(rr_percent_in) if rr_percent_in else ""`. -/
def rrNormOf (rrStr : String) : String :=
  if pyStripS rrStr = "" then "" else normalize_rr (pyStripS rrStr)

/-- Lines 486-495: when a normalized rate is present, re-extract its number
and compute `rr_amount_due = total_revenue * rr` and
`shortfall = max(0.0, rr_amount_due - total_collected_success)`; when the
regex finds no number the `except` leaves both at `None`. -/
def derivedOf (rrNorm : String) (t : ℚ × ℚ) : Option (ℚ × ℚ) :=
  if rrNorm = "" then none
  else
    match firstNumber rrNorm.data with
    | none => none
    | some r => some (t.1 * (r / 100), max 0 (t.1 * (r / 100) - t.2))

/-- `statement_extract` after the file/column plumbing: strip the two form
fields, normalize the rate, aggregate the rows, and derive
`rr_amount` / `shortfall` when a rate was supplied and its normalized form
contains a number (lines 422-426, 454-519).  `revenue_rows_processed`
models `reader.line_num - 1`, the number of data rows read. -/
def statement_extract (hasCollected hasStatus : Bool) (effStr rrStr : String)
    (rows : List StmtRow) : Metrics :=
  let eff := effDateOf effStr
  let rrNorm := rrNormOf rrStr
  let t := aggRows hasCollected hasStatus eff (0, 0) rows
  let derived := derivedOf rrNorm t
  { total_revenue_val := t.1
    successful_payments_val := t.2
    total_revenue := moneyDisplay t.1
    successful_payments := moneyDisplay t.2
    rr_percent := if rrNorm = "" then none else some rrNorm
    rr_amount_val := match derived with | some p => some p.1 | none => none
    shortfall_val := match derived with | some p => some p.2 | none => none
    rr_amount := match derived with | some p => some (moneyDisplay p.1) | none => none
    shortfall := match derived with | some p => some (moneyDisplay p.2) | none => none
    revenue_rows_processed := rows.length
    effective_date_applied :=
      match eff with | some _ => some (norm_date (pyStripS effStr)) | none => none }

/-! ### The five accepted textual date forms

Renderings of a calendar date in the five formats accepted by
`norm_date` / `parse_date_any`.  The day of the `"%b"` forms may be written
with or without a zero pad (both are accepted by `%d`); the numeric forms are
written fully zero-padded as in the spec (`"MM DD YYYY"`, `"MM/DD/YYYY"`,
`"YYYY-MM-DD"`). -/

/-- Four-digit year rendering. -/
def year4chars (y : Nat) : List Char :=
  [digitChar (y / 1000), digitChar (y / 100 % 10), digitChar (y / 10 % 10), digitChar (y % 10)]

/-- Day rendering: zero-padded when `pad` is set (always two digits for
`d ≥ 10`). -/
def dayChars (pad : Bool) (d : Nat) : List Char :=
  if pad ∨ 10 ≤ d then pad2c d else [digitChar d]

/-- `"Mon D YYYY"` / `"Mon DD YYYY"`. -/
def render1 (pad : Bool) (y m d : Nat) : List Char :=
  monAbbrChars m ++ ' ' :: (dayChars pad d ++ ' ' :: year4chars y)

/-- `"Mon D, YYYY"` / `"Mon DD, YYYY"`. -/
def render2 (pad : Bool) (y m d : Nat) : List Char :=
  monAbbrChars m ++ ' ' :: (dayChars pad d ++ ',' :: ' ' :: year4chars y)

/-- `"MM DD YYYY"`. -/
def render3 (y m d : Nat) : List Char :=
  pad2c m ++ ' ' :: (pad2c d ++ ' ' :: year4chars y)

/-- `"MM/DD/YYYY"`. -/
def render4 (y m d : Nat) : List Char :=
  pad2c m ++ '/' :: (pad2c d ++ '/' :: year4chars y)

/-- `"YYYY-MM-DD"`. -/
def render5 (y m d : Nat) : List Char :=
  year4chars y ++ '-' :: (pad2c m ++ '-' :: pad2c d)

/-! ### Evaluation helpers -/

lemma rhe_intCast (z : ℤ) : rhe (z : ℚ) = z := by
  unfold rhe
  rw [Int.floor_intCast]
  norm_num

lemma rhe_natCast (q : ℚ) (c : ℕ) (h : q = (c : ℚ)) : rhe q = (c : ℤ) := by
  have hc : q = ((c : ℤ) : ℚ) := by rw [h]; push_cast; ring
  rw [hc, rhe_intCast]

lemma moneyDisplay_eval (q : ℚ) (c : ℕ) (h0 : 0 ≤ q) (h : q * 100 = (c : ℚ)) :
    moneyDisplay q = String.mk ('$' :: moneyDigits c) := by
  unfold moneyDisplay
  rw [if_neg (not_lt.mpr h0), abs_of_nonneg h0, rhe_natCast _ c h, Int.toNat_natCast]
  simp

lemma fmtRR_eval (f : ℚ) (c : ℕ) (h : f * 100 = (c : ℚ)) : fmtRR f = fmtRRn c := by
  unfold fmtRR
  rw [rhe_natCast _ c h, Int.toNat_natCast]

lemma digitChar_isDigit (n : Nat) : (digitChar n).isDigit = true := by
  rcases n with _ | _ | _ | _ | _ | _ | _ | _ | _ | n <;> rfl

lemma parse_money_some (s : String) :
    parse_money (some s) = (if s = "" then (none, "") else
      match pyFloat (CURRENCY_RE_sub s.data) with
      | some f => (some f, moneyDisplay f)
      | none => (none, s)) := rfl

lemma normalize_rr_eval (s : String) (q : ℚ) (c : ℕ) (hne : ¬s = "")
    (h1 : firstNumber s.data = some q)
    (h2 : (if q < 0 then 0 else if 100 < q then 100 else q) * 100 = (c : ℚ)) :
    normalize_rr s = String.mk (fmtRRn c ++ ['%']) := by
  unfold normalize_rr
  rw [if_neg hne, h1]
  change String.mk (fmtRR (if q < 0 then 0 else if 100 < q then 100 else q) ++ ['%']) = _
  rw [fmtRR_eval _ c h2]

lemma firstNumber_150 : firstNumber "150".data = some ((150 : ℕ) : ℚ) := by
  show firstNumber ['1', '5', '0'] = _
  simp +decide [firstNumber, readNum, takeDigits, dropDigits, digitsValA, dval]

lemma normalize_rr_150 : normalize_rr "150" = "100%" := by
  rw [normalize_rr_eval "150" _ 10000 (by decide) firstNumber_150 (by norm_num)]
  decide

lemma normalize_rr_neg5 : normalize_rr "-5" = "5%" := by
  have h5 : firstNumber "-5".data = some ((5 : ℕ) : ℚ) := by
    show firstNumber ['-', '5'] = _
    simp +decide [firstNumber, readNum, takeDigits, dropDigits, digitsValA, dval]
  rw [normalize_rr_eval "-5" _ 500 (by decide) h5 (by push_cast; norm_num)]
  decide

/-! ### Claim C3 -/

/-- C3: the spec claims `normalize_rr` clamps the numeric value into
`[0, 100]`, with `"150"` giving `"100%"` and `"-5"` giving `"0%"`.  The upper
clamp holds, but the extraction regex `(\d+(?:\.\d+)?)` never captures a
sign, so on `"-5"` the code reads the value `5` and returns `"5%"`, not
`"0%"`: the negative-clamp branch `0.0 if f < 0` of line 87 is unreachable.
This contradicts the evident intent of that branch, so the claim is marked
as a code bug, witnessed by this evaluation. -/
theorem normalize_rr_clamp_and_negative :
    normalize_rr "150" = "100%" ∧ normalize_rr "-5" = "5%" ∧ ¬normalize_rr "-5" = "0%" :=
  ⟨normalize_rr_150, normalize_rr_neg5, by rw [normalize_rr_neg5]; decide⟩

/-! ### Claim C5 -/

/-- C5: for every monetary string whose parse succeeds, `parse_money` strips
exactly the characters outside `[0-9.-]`, returns the parsed value of the
residue, and a display string that is `$` followed by the amount with
thousands separators and exactly two fraction digits. -/
theorem parse_money_strip_value_display (s : String) (v : ℚ)
    (hs : ¬s = "") (h : pyFloat (CURRENCY_RE_sub s.data) = some v) :
    parse_money (some s) = (some v, moneyDisplay v) ∧
    (∀ l : List Char, CURRENCY_RE_sub l = List.filter keepMoneyChar l) ∧
    ∃ pre d1 d2, moneyDisplay v = String.mk ('$' :: pre ++ ['.', d1, d2]) ∧
      d1.isDigit ∧ d2.isDigit := by
  refine ⟨?_, ?_, ?_⟩
  · rw [parse_money_some, if_neg hs, h]
  · intro l
    induction l with
    | nil => rfl
    | cons c rest ih => simp [CURRENCY_RE_sub, List.filter_cons, ih]
  · unfold moneyDisplay moneyDigits pad2c
    refine ⟨(if v < 0 then ['-'] else []) ++
      withCommas (natChars ((rhe (|v| * 100)).toNat / 100)),
      digitChar ((rhe (|v| * 100)).toNat % 100 / 10),
      digitChar ((rhe (|v| * 100)).toNat % 100 % 10), ?_,
      digitChar_isDigit _, digitChar_isDigit _⟩
    simp

/-- C5 witness: `"$12,345.67"` parses to the value `12345.67` with display
`"$12,345.67"`. -/
theorem parse_money_strip_value_display_witness :
    parse_money (some "$12,345.67") = (some ((1234567 : ℚ) / 100), "$12,345.67") := by
  have hf : pyFloat (CURRENCY_RE_sub "$12,345.67".data) = some ((1234567 : ℚ) / 100) := by
    show pyFloat (CURRENCY_RE_sub ['$', '1', '2', ',', '3', '4', '5', '.', '6', '7']) = _
    simp +decide [CURRENCY_RE_sub, keepMoneyChar, pyFloat, pyFloatPos, takeDigits,
      dropDigits, digitsValA, dval, allDigits]
    norm_num
  have h := parse_money_strip_value_display _ _ (by decide) hf
  rw [h.1, moneyDisplay_eval _ 1234567 (by norm_num) (by norm_num)]
  refine Prod.ext rfl ?_
  decide

/-! ### Claim C6 -/

/-- C6: `parse_money` never raises: absent or empty input returns
`(none, "")`; a non-empty input whose numeric parse fails returns `none`
together with the original string unchanged. -/
theorem parse_money_total_failure_passthrough (s : String) :
    parse_money none = (none, "") ∧ parse_money (some "") = (none, "") ∧
    (¬s = "" → pyFloat (CURRENCY_RE_sub s.data) = none → parse_money (some s) = (none, s)) := by
  refine ⟨rfl, rfl, fun hs hf => ?_⟩
  rw [parse_money_some, if_neg hs, hf]

/-- C6 witness: the unparseable input `"n/a"` passes through unchanged. -/
theorem parse_money_total_failure_passthrough_witness :
    parse_money (some "n/a") = (none, "n/a") :=
  (parse_money_total_failure_passthrough "n/a").2.2 (by decide) (by decide)

/-! ### Claim C7 -/

/-- C7 counterexample: `_canonize` does not trim trailing underscores, so two
headers that differ only in punctuation can map to different canonical forms,
and `"Revenue Date!"` matches no column role at all. -/
theorem canonize_no_underscore_trim :
    _canonize "Revenue Date" = "revenue_date" ∧
    _canonize "Revenue Date!" = "revenue_date_" ∧
    ¬_canonize "Revenue Date!" = _canonize "Revenue Date" ∧
    _find_col ["Revenue Date!"] "revenue_date" = none := by decide

set_option maxHeartbeats 1000000 in
lemma pyIsSpace_lowerc (c : Char) : pyIsSpace (lowerc c) = pyIsSpace c := by
  unfold lowerc
  by_cases h1 : c = 'A'
  · subst h1; rfl
  by_cases h2 : c = 'B'
  · subst h2; rfl
  by_cases h3 : c = 'C'
  · subst h3; rfl
  by_cases h4 : c = 'D'
  · subst h4; rfl
  by_cases h5 : c = 'E'
  · subst h5; rfl
  by_cases h6 : c = 'F'
  · subst h6; rfl
  by_cases h7 : c = 'G'
  · subst h7; rfl
  by_cases h8 : c = 'H'
  · subst h8; rfl
  by_cases h9 : c = 'I'
  · subst h9; rfl
  by_cases h10 : c = 'J'
  · subst h10; rfl
  by_cases h11 : c = 'K'
  · subst h11; rfl
  by_cases h12 : c = 'L'
  · subst h12; rfl
  by_cases h13 : c = 'M'
  · subst h13; rfl
  by_cases h14 : c = 'N'
  · subst h14; rfl
  by_cases h15 : c = 'O'
  · subst h15; rfl
  by_cases h16 : c = 'P'
  · subst h16; rfl
  by_cases h17 : c = 'Q'
  · subst h17; rfl
  by_cases h18 : c = 'R'
  · subst h18; rfl
  by_cases h19 : c = 'S'
  · subst h19; rfl
  by_cases h20 : c = 'T'
  · subst h20; rfl
  by_cases h21 : c = 'U'
  · subst h21; rfl
  by_cases h22 : c = 'V'
  · subst h22; rfl
  by_cases h23 : c = 'W'
  · subst h23; rfl
  by_cases h24 : c = 'X'
  · subst h24; rfl
  by_cases h25 : c = 'Y'
  · subst h25; rfl
  by_cases h26 : c = 'Z'
  · subst h26; rfl
  rw [if_neg h1, if_neg h2, if_neg h3, if_neg h4, if_neg h5, if_neg h6, if_neg h7,
    if_neg h8, if_neg h9, if_neg h10, if_neg h11, if_neg h12, if_neg h13, if_neg h14,
    if_neg h15, if_neg h16, if_neg h17, if_neg h18, if_neg h19, if_neg h20, if_neg h21,
    if_neg h22, if_neg h23, if_neg h24, if_neg h25, if_neg h26]

lemma dropSpaces_mapLower (l : List Char) :
    dropSpaces (mapLower l) = mapLower (dropSpaces l) := by
  induction l with
  | nil => rfl
  | cons c rest ih =>
    by_cases h : pyIsSpace c
    · simp [dropSpaces, mapLower, pyIsSpace_lowerc, h, ih]
    · simp [dropSpaces, mapLower, pyIsSpace_lowerc, h]

lemma mapLower_append (l1 l2 : List Char) :
    mapLower (l1 ++ l2) = mapLower l1 ++ mapLower l2 := by
  induction l1 with
  | nil => rfl
  | cons c rest ih => simp [mapLower, ih]

lemma mapLower_reverse (l : List Char) : mapLower l.reverse = (mapLower l).reverse := by
  induction l with
  | nil => rfl
  | cons c rest ih => simp [mapLower, mapLower_append, ih]

lemma pyStrip_mapLower (l : List Char) : pyStrip (mapLower l) = mapLower (pyStrip l) := by
  unfold pyStrip
  rw [dropSpaces_mapLower, ← mapLower_reverse, dropSpaces_mapLower, ← mapLower_reverse]

/-- C7 amended: `_canonize` lowercases, trims surrounding whitespace and
collapses every run of non-alphanumeric characters to one underscore (without
trimming leading/trailing underscores); canonicalization is case-insensitive
(headers equal after lowercasing canonize identically), and the three
spellings named by the claim all map to the `revenue_date` role. -/
theorem canonize_case_and_examples :
    (∀ l1 l2 : List Char, mapLower l1 = mapLower l2 →
      _canonize (String.mk l1) = _canonize (String.mk l2)) ∧
    _find_col ["Revenue Date"] "revenue_date" = some "Revenue Date" ∧
    _find_col ["revenue_date"] "revenue_date" = some "revenue_date" ∧
    _find_col ["REVENUE-DATE"] "revenue_date" = some "REVENUE-DATE" := by
  refine ⟨fun l1 l2 h => ?_, by decide, by decide, by decide⟩
  unfold _canonize
  show String.mk (collapseRuns false (mapLower (pyStrip l1))) = _
  rw [← pyStrip_mapLower, h, pyStrip_mapLower]

/-- C7 amended witness: two concrete spellings that agree after lowercasing
canonize identically. -/
theorem canonize_case_and_examples_witness :
    _canonize (String.mk ['R', 'e', 'V', 'E', 'N', 'U', 'E', ' ', 'D', 'a', 't', 'e']) =
      _canonize (String.mk ['r', 'e', 'v', 'e', 'n', 'u', 'e', ' ', 'd', 'a', 't', 'e']) :=
  canonize_case_and_examples.1 _ _ (by decide)

/-! ### Claim C8 -/

/-- C8 counterexample: on unparseable non-empty input, `norm_date` does not
return the input unchanged: it returns the whitespace-stripped input. -/
theorem norm_date_returns_stripped_input :
    norm_date " hello " = "hello" ∧ ¬norm_date " hello " = " hello " := by decide

/-- C8 amended: for every non-empty string matching none of the five date
formats, `norm_date` returns the whitespace-trimmed input (not blanked, not
otherwise rewritten). -/
theorem norm_date_unparseable_trimmed_identity (s : String) (hne : ¬s = "")
    (h : normDateCore (pyStrip s.data) = none) :
    norm_date s = String.mk (pyStrip s.data) := by
  unfold norm_date
  rw [if_neg hne, h]

/-- C8 amended witness: two concrete unparseable inputs come back trimmed but
otherwise intact. -/
theorem norm_date_unparseable_trimmed_identity_witness :
    norm_date " hello " = "hello" ∧ norm_date "n/a " = "n/a" := by
  constructor
  · rw [norm_date_unparseable_trimmed_identity " hello " (by decide) (by decide)]
    decide
  · rw [norm_date_unparseable_trimmed_identity "n/a " (by decide) (by decide)]
    decide

/-! ### Statement aggregation lemmas -/

lemma se_total_revenue_val (hc hs : Bool) (e r : String) (rows : List StmtRow) :
    (statement_extract hc hs e r rows).total_revenue_val =
      (aggRows hc hs (effDateOf e) (0, 0) rows).1 := rfl

lemma se_successful_payments_val (hc hs : Bool) (e r : String) (rows : List StmtRow) :
    (statement_extract hc hs e r rows).successful_payments_val =
      (aggRows hc hs (effDateOf e) (0, 0) rows).2 := rfl

lemma se_rr_percent (hc hs : Bool) (e r : String) (rows : List StmtRow) :
    (statement_extract hc hs e r rows).rr_percent =
      (if rrNormOf r = "" then none else some (rrNormOf r)) := rfl

lemma se_rr_amount_val (hc hs : Bool) (e r : String) (rows : List StmtRow) :
    (statement_extract hc hs e r rows).rr_amount_val =
      (match derivedOf (rrNormOf r) (aggRows hc hs (effDateOf e) (0, 0) rows) with
       | some p => some p.1 | none => none) := rfl

lemma se_shortfall_val (hc hs : Bool) (e r : String) (rows : List StmtRow) :
    (statement_extract hc hs e r rows).shortfall_val =
      (match derivedOf (rrNormOf r) (aggRows hc hs (effDateOf e) (0, 0) rows) with
       | some p => some p.2 | none => none) := rfl

lemma se_rows_processed (hc hs : Bool) (e r : String) (rows : List StmtRow) :
    (statement_extract hc hs e r rows).revenue_rows_processed = rows.length := rfl

lemma aggRows_nil (hc hs : Bool) (eff : Option PyDate) (acc : ℚ × ℚ) :
    aggRows hc hs eff acc [] = acc := rfl

lemma aggRows_cons (hc hs : Bool) (eff : Option PyDate) (acc : ℚ × ℚ)
    (r : StmtRow) (rest : List StmtRow) :
    aggRows hc hs eff acc (r :: rest) =
      aggRows hc hs eff (procRow hc hs eff acc r) rest := rfl

lemma procRow_skipped (hc hs : Bool) (eff : Option PyDate) (acc : ℚ × ℚ) (row : StmtRow)
    (hskip : rowSkipped eff row = true) :
    procRow hc hs eff acc row = acc := by
  unfold procRow
  rw [hskip]
  rfl

lemma procRow_malformed_revenue (hc hs : Bool) (eff : Option PyDate) (acc : ℚ × ℚ)
    (row : StmtRow) (hrev : moneyCellFloat row.revenue = none) :
    procRow hc hs eff acc row = acc := by
  unfold procRow
  by_cases hskip : rowSkipped eff row
  · rw [if_pos hskip]
  · rw [if_neg hskip, hrev]

lemma procRow_malformed_collected (hc hs : Bool) (eff : Option PyDate) (acc : ℚ × ℚ)
    (row : StmtRow) (rev : ℚ)
    (hskip : rowSkipped eff row = false)
    (hrev : moneyCellFloat row.revenue = some rev)
    (hcoll : moneyCellFloat (if hc then row.collected else "") = none) :
    procRow hc hs eff acc row = (acc.1 + rev, acc.2) := by
  unfold procRow
  rw [hskip]
  show (match moneyCellFloat row.revenue with
    | none => acc
    | some rev =>
      match moneyCellFloat (if hc then row.collected else "") with
      | none => (acc.1 + rev, acc.2)
      | some coll =>
        if canonStatus (if hs then row.status else "") ∈ SUCCESS_STATUSES ∨
            (hs = false ∧ 0 < coll) then (acc.1 + rev, acc.2 + coll)
        else (acc.1 + rev, acc.2)) = (acc.1 + rev, acc.2)
  rw [hrev]
  show (match moneyCellFloat (if hc then row.collected else "") with
    | none => (acc.1 + rev, acc.2)
    | some coll =>
      if canonStatus (if hs then row.status else "") ∈ SUCCESS_STATUSES ∨
          (hs = false ∧ 0 < coll) then (acc.1 + rev, acc.2 + coll)
      else (acc.1 + rev, acc.2)) = (acc.1 + rev, acc.2)
  rw [hcoll]

lemma procRow_success (hc hs : Bool) (eff : Option PyDate) (acc : ℚ × ℚ)
    (row : StmtRow) (rev coll : ℚ)
    (hskip : rowSkipped eff row = false)
    (hrev : moneyCellFloat row.revenue = some rev)
    (hcoll : moneyCellFloat (if hc then row.collected else "") = some coll)
    (hst : canonStatus (if hs then row.status else "") ∈ SUCCESS_STATUSES ∨
      (hs = false ∧ 0 < coll)) :
    procRow hc hs eff acc row = (acc.1 + rev, acc.2 + coll) := by
  unfold procRow
  rw [hskip]
  show (match moneyCellFloat row.revenue with
    | none => acc
    | some rev =>
      match moneyCellFloat (if hc then row.collected else "") with
      | none => (acc.1 + rev, acc.2)
      | some coll =>
        if canonStatus (if hs then row.status else "") ∈ SUCCESS_STATUSES ∨
            (hs = false ∧ 0 < coll) then (acc.1 + rev, acc.2 + coll)
        else (acc.1 + rev, acc.2)) = (acc.1 + rev, acc.2 + coll)
  rw [hrev]
  show (match moneyCellFloat (if hc then row.collected else "") with
    | none => (acc.1 + rev, acc.2)
    | some coll =>
      if canonStatus (if hs then row.status else "") ∈ SUCCESS_STATUSES ∨
          (hs = false ∧ 0 < coll) then (acc.1 + rev, acc.2 + coll)
      else (acc.1 + rev, acc.2)) = (acc.1 + rev, acc.2 + coll)
  rw [hcoll]
  show (if canonStatus (if hs then row.status else "") ∈ SUCCESS_STATUSES ∨
      (hs = false ∧ 0 < coll) then (acc.1 + rev, acc.2 + coll)
    else (acc.1 + rev, acc.2)) = (acc.1 + rev, acc.2 + coll)
  rw [if_pos hst]

lemma procRow_no_success (hc hs : Bool) (eff : Option PyDate) (acc : ℚ × ℚ)
    (row : StmtRow) (rev coll : ℚ)
    (hskip : rowSkipped eff row = false)
    (hrev : moneyCellFloat row.revenue = some rev)
    (hcoll : moneyCellFloat (if hc then row.collected else "") = some coll)
    (hst : ¬(canonStatus (if hs then row.status else "") ∈ SUCCESS_STATUSES ∨
      (hs = false ∧ 0 < coll))) :
    procRow hc hs eff acc row = (acc.1 + rev, acc.2) := by
  unfold procRow
  rw [hskip]
  show (match moneyCellFloat row.revenue with
    | none => acc
    | some rev =>
      match moneyCellFloat (if hc then row.collected else "") with
      | none => (acc.1 + rev, acc.2)
      | some coll =>
        if canonStatus (if hs then row.status else "") ∈ SUCCESS_STATUSES ∨
            (hs = false ∧ 0 < coll) then (acc.1 + rev, acc.2 + coll)
        else (acc.1 + rev, acc.2)) = (acc.1 + rev, acc.2)
  rw [hrev]
  show (match moneyCellFloat (if hc then row.collected else "") with
    | none => (acc.1 + rev, acc.2)
    | some coll =>
      if canonStatus (if hs then row.status else "") ∈ SUCCESS_STATUSES ∨
          (hs = false ∧ 0 < coll) then (acc.1 + rev, acc.2 + coll)
      else (acc.1 + rev, acc.2)) = (acc.1 + rev, acc.2)
  rw [hcoll]
  show (if canonStatus (if hs then row.status else "") ∈ SUCCESS_STATUSES ∨
      (hs = false ∧ 0 < coll) then (acc.1 + rev, acc.2 + coll)
    else (acc.1 + rev, acc.2)) = (acc.1 + rev, acc.2)
  rw [if_neg hst]

lemma firstNumber_ne_nil (s : String) (q : ℚ) (h : firstNumber s.data = some q) :
    ¬s = "" := by
  intro he
  rw [he] at h
  exact Option.noConfusion h

/-! ### Claim C1 -/

/-- C1 counterexample: with a single revenue row of `100` and the supplied
rate string `"150"` (which parses to the number `150`), the code computes
`rr_amount = 100` from the clamped, normalized rate (`"100%"`), not
`total_revenue * (150 / 100) = 150` as the claim states it. -/
theorem statement_rr_amount_uses_clamped_rate :
    (statement_extract true true "" "150" [⟨"", "100", "", ""⟩]).total_revenue_val = 100 ∧
    (statement_extract true true "" "150" [⟨"", "100", "", ""⟩]).rr_amount_val = some 100 ∧
    firstNumber "150".data = some ((150 : ℕ) : ℚ) ∧
    ¬(100 : ℚ) = 100 * (((150 : ℕ) : ℚ) / 100) := by
  have hrow : procRow true true none ((0 : ℚ), (0 : ℚ)) ⟨"", "100", "", ""⟩ =
      (((0 : ℚ), (0 : ℚ)).1 + ((100 : ℕ) : ℚ), ((0 : ℚ), (0 : ℚ)).2) :=
    procRow_no_success true true none _ _ _ 0 rfl rfl rfl (by decide)
  have hagg : aggRows true true none ((0 : ℚ), (0 : ℚ)) [⟨"", "100", "", ""⟩] =
      ((0 : ℚ) + ((100 : ℕ) : ℚ), (0 : ℚ)) := by
    rw [aggRows_cons, hrow, aggRows_nil]
  have hrr : rrNormOf "150" = "100%" := by
    show (if pyStripS "150" = "" then "" else normalize_rr (pyStripS "150")) = "100%"
    rw [if_neg (by decide), show pyStripS "150" = "150" from rfl, normalize_rr_150]
  have hfn : firstNumber "100%".data = some ((100 : ℕ) : ℚ) := by
    show firstNumber ['1', '0', '0', '%'] = _
    simp +decide [firstNumber, readNum, takeDigits, dropDigits, digitsValA, dval]
  have heff : effDateOf "" = none := rfl
  refine ⟨?_, ?_, firstNumber_150, by norm_num⟩
  · rw [se_total_revenue_val, heff, hagg]
    norm_num
  · rw [se_rr_amount_val, heff, hagg]
    unfold derivedOf
    rw [hrr, if_neg (by decide), hfn]
    show some _ = some 100
    norm_num

/-- C1 (amended): whenever the normalized supplied rate contains a number
`q` (the supplied rate clamped into `[0, 100]` and rounded to two decimals),
the computed `rr_amount` equals `total_revenue * (q / 100)` and the computed
shortfall equals `max 0 (rr_amount - total_collected)`, hence is never
negative, for every row set and every rate string. -/
theorem statement_shortfall_max_nonneg (hc hs : Bool) (effStr rrStr : String)
    (rows : List StmtRow) (q : ℚ)
    (hq : firstNumber (rrNormOf rrStr).data = some q) :
    (statement_extract hc hs effStr rrStr rows).rr_amount_val =
      some ((statement_extract hc hs effStr rrStr rows).total_revenue_val * (q / 100)) ∧
    (statement_extract hc hs effStr rrStr rows).shortfall_val =
      some (max 0 ((statement_extract hc hs effStr rrStr rows).total_revenue_val * (q / 100) -
        (statement_extract hc hs effStr rrStr rows).successful_payments_val)) ∧
    ∀ sf, (statement_extract hc hs effStr rrStr rows).shortfall_val = some sf → 0 ≤ sf := by
  have hne : ¬rrNormOf rrStr = "" := firstNumber_ne_nil _ _ hq
  have hder : derivedOf (rrNormOf rrStr) (aggRows hc hs (effDateOf effStr) (0, 0) rows) =
      some ((aggRows hc hs (effDateOf effStr) (0, 0) rows).1 * (q / 100),
        max 0 ((aggRows hc hs (effDateOf effStr) (0, 0) rows).1 * (q / 100) -
          (aggRows hc hs (effDateOf effStr) (0, 0) rows).2)) := by
    unfold derivedOf
    rw [if_neg hne, hq]
  refine ⟨?_, ?_, ?_⟩
  · rw [se_rr_amount_val, hder, se_total_revenue_val]
  · rw [se_shortfall_val, hder, se_total_revenue_val, se_successful_payments_val]
  · intro sf hsf
    rw [se_shortfall_val, hder] at hsf
    simp only [Option.some.injEq] at hsf
    rw [← hsf]
    exact le_max_left _ _

/-- C1 witness: scenario B of the spec (two rows, rate `"14"`):
`rr_amount = 210`, `shortfall = 70`. -/
theorem statement_shortfall_max_nonneg_witness :
    (statement_extract true true "" "14"
      [⟨"2024-01-10", "1000", "140", "succeeded"⟩,
       ⟨"2024-01-20", "500", "0", "failed"⟩]).rr_amount_val = some 210 ∧
    (statement_extract true true "" "14"
      [⟨"2024-01-10", "1000", "140", "succeeded"⟩,
       ⟨"2024-01-20", "500", "0", "failed"⟩]).shortfall_val = some 70 := by
  have h14 : firstNumber "14".data = some ((14 : ℕ) : ℚ) := by
    show firstNumber ['1', '4'] = _
    simp +decide [firstNumber, readNum, takeDigits, dropDigits, digitsValA, dval]
  have hrr : rrNormOf "14" = "14%" := by
    show (if pyStripS "14" = "" then "" else normalize_rr (pyStripS "14")) = "14%"
    rw [if_neg (by decide), show pyStripS "14" = "14" from rfl]
    rw [normalize_rr_eval "14" _ 1400 (by decide) h14 (by push_cast; norm_num)]
    decide
  have hfn : firstNumber (rrNormOf "14").data = some ((14 : ℕ) : ℚ) := by
    rw [hrr]
    show firstNumber ['1', '4', '%'] = _
    simp +decide [firstNumber, readNum, takeDigits, dropDigits, digitsValA, dval]
  have h := statement_shortfall_max_nonneg true true "" "14"
    [⟨"2024-01-10", "1000", "140", "succeeded"⟩, ⟨"2024-01-20", "500", "0", "failed"⟩] _ hfn
  have hrow1 : procRow true true none ((0 : ℚ), (0 : ℚ)) ⟨"2024-01-10", "1000", "140", "succeeded"⟩ =
      (((0 : ℚ), (0 : ℚ)).1 + ((1000 : ℕ) : ℚ), ((0 : ℚ), (0 : ℚ)).2 + ((140 : ℕ) : ℚ)) :=
    procRow_success true true none _ _ _ _ rfl rfl rfl (by decide)
  have hrow2 : procRow true true none
      ((0 : ℚ) + ((1000 : ℕ) : ℚ), (0 : ℚ) + ((140 : ℕ) : ℚ)) ⟨"2024-01-20", "500", "0", "failed"⟩ =
      (((0 : ℚ) + ((1000 : ℕ) : ℚ), (0 : ℚ) + ((140 : ℕ) : ℚ)).1 + ((500 : ℕ) : ℚ),
        ((0 : ℚ) + ((1000 : ℕ) : ℚ), (0 : ℚ) + ((140 : ℕ) : ℚ)).2) :=
    procRow_no_success true true none _ _ _ ((0 : ℕ) : ℚ) rfl rfl rfl (by decide)
  have hagg : aggRows true true none ((0 : ℚ), (0 : ℚ))
      [⟨"2024-01-10", "1000", "140", "succeeded"⟩, ⟨"2024-01-20", "500", "0", "failed"⟩] =
      ((0 : ℚ) + ((1000 : ℕ) : ℚ) + ((500 : ℕ) : ℚ), (0 : ℚ) + ((140 : ℕ) : ℚ)) := by
    rw [aggRows_cons, hrow1, aggRows_cons]
    rw [hrow2, aggRows_nil]
  constructor
  · rw [h.1, se_total_revenue_val, show effDateOf "" = none from rfl, hagg]
    norm_num
  · rw [h.2.1, se_total_revenue_val, se_successful_payments_val,
      show effDateOf "" = none from rfl, hagg]
    rw [show (0 : ℚ) + ((1000 : ℕ) : ℚ) + ((500 : ℕ) : ℚ) = 1500 by norm_num,
      show (0 : ℚ) + ((140 : ℕ) : ℚ) = 140 by norm_num]
    rw [show (1500 : ℚ) * (((14 : ℕ) : ℚ) / 100) - 140 = 70 by norm_num]
    rw [show max (0 : ℚ) 70 = 70 from max_eq_right (by norm_num)]

/-! ### Claim C4 -/

lemma aggRows_append (hc hs : Bool) (eff : Option PyDate) (l1 l2 : List StmtRow)
    (acc : ℚ × ℚ) :
    aggRows hc hs eff acc (l1 ++ l2) = aggRows hc hs eff (aggRows hc hs eff acc l1) l2 := by
  induction l1 generalizing acc with
  | nil => rfl
  | cons a l1 ih => rw [List.cons_append, aggRows_cons, aggRows_cons, ih]

/-- C4 counterexample: a row whose collected cell fails to parse is not
skipped from the accumulated totals: its revenue (added before the collected
parse raises) stays counted, so `total_revenue = 100`, not `0`. -/
theorem statement_malformed_collected_keeps_revenue :
    (statement_extract true true "" "" [⟨"2024-01-10", "100", "junk", "succeeded"⟩]).total_revenue_val =
      (0 : ℚ) + ((100 : ℕ) : ℚ) ∧
    (statement_extract true true "" "" [⟨"2024-01-10", "100", "junk", "succeeded"⟩]).successful_payments_val = 0 ∧
    ¬((0 : ℚ) + ((100 : ℕ) : ℚ) = 0) := by
  have hrow : procRow true true none ((0 : ℚ), (0 : ℚ)) ⟨"2024-01-10", "100", "junk", "succeeded"⟩ =
      (((0 : ℚ), (0 : ℚ)).1 + ((100 : ℕ) : ℚ), ((0 : ℚ), (0 : ℚ)).2) :=
    procRow_malformed_collected true true none _ _ _ rfl rfl rfl
  have hagg : aggRows true true none ((0 : ℚ), (0 : ℚ)) [⟨"2024-01-10", "100", "junk", "succeeded"⟩] =
      ((0 : ℚ) + ((100 : ℕ) : ℚ), (0 : ℚ)) := by
    rw [aggRows_cons, hrow, aggRows_nil]
  refine ⟨?_, ?_, by norm_num⟩
  · rw [se_total_revenue_val, show effDateOf "" = none from rfl, hagg]
  · rw [se_successful_payments_val, show effDateOf "" = none from rfl, hagg]

/-- C4 (amended): a money-cell parse failure never aborts aggregation and
stays local to the row: a row whose revenue cell fails to parse contributes
to no total (dropping it leaves the aggregate of the remaining rows intact,
which are all still processed); a row whose collected cell fails to parse
still contributes its revenue (only the collected accumulation is skipped);
and the reported processed-row count is the number of data rows, including
every skipped row. -/
theorem statement_row_parse_failure_local (hc hs : Bool) (eff : Option PyDate)
    (acc : ℚ × ℚ) (pre suf : List StmtRow) (r : StmtRow) :
    (moneyCellFloat r.revenue = none →
      aggRows hc hs eff acc (pre ++ r :: suf) = aggRows hc hs eff acc (pre ++ suf)) ∧
    (∀ rev, rowSkipped eff r = false → moneyCellFloat r.revenue = some rev →
      moneyCellFloat (if hc then r.collected else "") = none →
      procRow hc hs eff acc r = (acc.1 + rev, acc.2)) ∧
    (∀ (e rr : String) (rows : List StmtRow),
      (statement_extract hc hs e rr rows).revenue_rows_processed = rows.length) := by
  refine ⟨fun h => ?_,
    fun rev h1 h2 h3 => procRow_malformed_collected hc hs eff acc r rev h1 h2 h3,
    fun e rr rows => se_rows_processed hc hs e rr rows⟩
  rw [aggRows_append, aggRows_cons, procRow_malformed_revenue hc hs eff _ r h, ← aggRows_append]

/-- C4 witness: ten rows, one malformed revenue cell among them:
the aggregate equals that of the nine valid rows, the processed count is 10,
and `total_revenue` is the sum `900` of the nine valid rows. -/
theorem statement_row_parse_failure_local_witness :
    aggRows true true none ((0 : ℚ), (0 : ℚ))
      ([⟨"", "100", "", ""⟩, ⟨"", "100", "", ""⟩, ⟨"", "100", "", ""⟩, ⟨"", "100", "", ""⟩,
        ⟨"", "100", "", ""⟩] ++ ⟨"", "abc", "", ""⟩ ::
       [⟨"", "100", "", ""⟩, ⟨"", "100", "", ""⟩, ⟨"", "100", "", ""⟩, ⟨"", "100", "", ""⟩]) =
      aggRows true true none ((0 : ℚ), (0 : ℚ))
      ([⟨"", "100", "", ""⟩, ⟨"", "100", "", ""⟩, ⟨"", "100", "", ""⟩, ⟨"", "100", "", ""⟩,
        ⟨"", "100", "", ""⟩] ++
       [⟨"", "100", "", ""⟩, ⟨"", "100", "", ""⟩, ⟨"", "100", "", ""⟩, ⟨"", "100", "", ""⟩]) ∧
    (statement_extract true true "" ""
      ([⟨"", "100", "", ""⟩, ⟨"", "100", "", ""⟩, ⟨"", "100", "", ""⟩, ⟨"", "100", "", ""⟩,
        ⟨"", "100", "", ""⟩] ++ ⟨"", "abc", "", ""⟩ ::
       [⟨"", "100", "", ""⟩, ⟨"", "100", "", ""⟩, ⟨"", "100", "", ""⟩, ⟨"", "100", "", ""⟩])).revenue_rows_processed = 10 ∧
    (statement_extract true true "" ""
      ([⟨"", "100", "", ""⟩, ⟨"", "100", "", ""⟩, ⟨"", "100", "", ""⟩, ⟨"", "100", "", ""⟩,
        ⟨"", "100", "", ""⟩] ++ ⟨"", "abc", "", ""⟩ ::
       [⟨"", "100", "", ""⟩, ⟨"", "100", "", ""⟩, ⟨"", "100", "", ""⟩, ⟨"", "100", "", ""⟩])).total_revenue_val = 900 := by
  have h := statement_row_parse_failure_local true true none ((0 : ℚ), (0 : ℚ))
    [⟨"", "100", "", ""⟩, ⟨"", "100", "", ""⟩, ⟨"", "100", "", ""⟩, ⟨"", "100", "", ""⟩,
     ⟨"", "100", "", ""⟩]
    [⟨"", "100", "", ""⟩, ⟨"", "100", "", ""⟩, ⟨"", "100", "", ""⟩, ⟨"", "100", "", ""⟩]
    ⟨"", "abc", "", ""⟩
  have hskip := h.1 rfl
  have hstep : ∀ acc : ℚ × ℚ, procRow true true none acc ⟨"", "100", "", ""⟩ =
      (acc.1 + ((100 : ℕ) : ℚ), acc.2) :=
    fun acc => procRow_no_success true true none acc _ _ 0 rfl rfl rfl (by decide)
  refine ⟨hskip, ?_, ?_⟩
  · rw [(h.2.2 "" "" _ : _ = _)]
    decide
  · rw [se_total_revenue_val, show effDateOf "" = none from rfl, hskip]
    show (aggRows true true none ((0 : ℚ), (0 : ℚ))
      [⟨"", "100", "", ""⟩, ⟨"", "100", "", ""⟩, ⟨"", "100", "", ""⟩, ⟨"", "100", "", ""⟩,
       ⟨"", "100", "", ""⟩, ⟨"", "100", "", ""⟩, ⟨"", "100", "", ""⟩, ⟨"", "100", "", ""⟩,
       ⟨"", "100", "", ""⟩]).1 = 900
    rw [aggRows_cons, hstep, aggRows_cons, hstep, aggRows_cons, hstep, aggRows_cons, hstep,
      aggRows_cons, hstep, aggRows_cons, hstep, aggRows_cons, hstep, aggRows_cons, hstep,
      aggRows_cons, hstep, aggRows_nil]
    norm_num

/-! ### Claim C10 -/

/-- C10 counterexample: a non-empty digit-free rate string is echoed only
after whitespace trimming: supplying `" x "` yields `rr_percent = "x"`, not
`" x "` unchanged. -/
theorem statement_rr_echo_trims_whitespace :
    (statement_extract true true "" " x " []).rr_percent = some "x" ∧
    ¬(statement_extract true true "" " x " []).rr_percent = some " x " ∧
    (statement_extract true true "" " x " []).rr_amount_val = none ∧
    (statement_extract true true "" " x " []).shortfall_val = none := by decide

/-- C10 (amended): when the supplied rate string is non-empty after
trimming and contains no digit, the response echoes the trimmed string as
`rr_percent`, `rr_amount` and `shortfall` are absent, and the aggregation
still completes, reporting the full row count. -/
theorem statement_nonnumeric_rate_passthrough (hc hs : Bool) (effStr rrStr : String)
    (rows : List StmtRow)
    (hne : ¬pyStripS rrStr = "")
    (hnd : firstNumber (pyStripS rrStr).data = none) :
    (statement_extract hc hs effStr rrStr rows).rr_percent = some (pyStripS rrStr) ∧
    (statement_extract hc hs effStr rrStr rows).rr_amount_val = none ∧
    (statement_extract hc hs effStr rrStr rows).shortfall_val = none ∧
    (statement_extract hc hs effStr rrStr rows).revenue_rows_processed = rows.length := by
  have hrrn : rrNormOf rrStr = pyStripS rrStr := by
    unfold rrNormOf
    rw [if_neg hne]
    unfold normalize_rr
    rw [if_neg hne, hnd]
  have hder : derivedOf (rrNormOf rrStr) (aggRows hc hs (effDateOf effStr) (0, 0) rows) = none := by
    unfold derivedOf
    rw [hrrn, if_neg hne, hnd]
  exact ⟨by rw [se_rr_percent, hrrn, if_neg hne],
    by rw [se_rr_amount_val, hder],
    by rw [se_shortfall_val, hder],
    se_rows_processed hc hs effStr rrStr rows⟩

/-- C10 witness: the rate `" n/a "` is echoed as `"n/a"`, the derived
metrics are absent, and the single data row is counted. -/
theorem statement_nonnumeric_rate_passthrough_witness :
    (statement_extract true true "" " n/a " [⟨"", "100", "", ""⟩]).rr_percent = some "n/a" ∧
    (statement_extract true true "" " n/a " [⟨"", "100", "", ""⟩]).rr_amount_val = none ∧
    (statement_extract true true "" " n/a " [⟨"", "100", "", ""⟩]).shortfall_val = none ∧
    (statement_extract true true "" " n/a " [⟨"", "100", "", ""⟩]).revenue_rows_processed = 1 := by
  have h := statement_nonnumeric_rate_passthrough true true "" " n/a " [⟨"", "100", "", ""⟩]
    (by decide) (by decide)
  refine ⟨?_, h.2.1, h.2.2.1, h.2.2.2⟩
  rw [h.1]
  decide

/-! ### Digit-string round-trip lemmas -/

lemma keepMoneyChar_of_digit (c : Char) (h : c.isDigit = true) : keepMoneyChar c = true := by
  simp [keepMoneyChar, h]

lemma dval_digitChar (k : Nat) (h : k < 10) : dval (digitChar k) = k := by
  interval_cases k <;> rfl

lemma digit_ne_minus (c : Char) (h : c.isDigit = true) : ¬c = '-' := by
  intro he
  subst he
  exact absurd h (by decide)

lemma natCharsF_digits (fuel : Nat) :
    ∀ n, n < fuel → ∀ c ∈ natCharsF fuel n, c.isDigit = true := by
  induction fuel with
  | zero => intro n h; omega
  | succ fuel ih =>
    intro n _ c hc
    unfold natCharsF at hc
    by_cases h10 : n < 10
    · rw [if_pos h10] at hc
      simp only [List.mem_singleton] at hc
      subst hc
      exact digitChar_isDigit n
    · rw [if_neg h10] at hc
      rcases List.mem_append.mp hc with h1 | h2
      · exact ih (n / 10) (by omega) c h1
      · simp only [List.mem_singleton] at h2
        subst h2
        exact digitChar_isDigit (n % 10)

lemma natChars_digits (n : Nat) : ∀ c ∈ natChars n, c.isDigit = true :=
  natCharsF_digits (n + 1) n (Nat.lt_succ_self n)

lemma natCharsF_ne_nil (fuel n : Nat) (h : n < fuel) : ¬natCharsF fuel n = [] := by
  cases fuel with
  | zero => omega
  | succ fuel =>
    unfold natCharsF
    by_cases h10 : n < 10
    · rw [if_pos h10]
      exact fun he => List.noConfusion he
    · rw [if_neg h10]
      intro he
      exact absurd (List.append_eq_nil.mp he).2 (fun hc => List.noConfusion hc)

lemma natChars_ne_nil (n : Nat) : ¬natChars n = [] :=
  natCharsF_ne_nil (n + 1) n (Nat.lt_succ_self n)

lemma digitsValA_append (l1 l2 : List Char) :
    ∀ acc, digitsValA (l1 ++ l2) acc = digitsValA l2 (digitsValA l1 acc) := by
  induction l1 with
  | nil => intro acc; rfl
  | cons c rest ih =>
    intro acc
    rw [List.cons_append]
    show digitsValA (rest ++ l2) (acc * 10 + dval c) = _
    rw [ih]
    rfl

lemma digitsValA_natCharsF (fuel : Nat) :
    ∀ n, n < fuel → ∀ acc,
      digitsValA (natCharsF fuel n) acc = acc * 10 ^ (natCharsF fuel n).length + n := by
  induction fuel with
  | zero => intro n h; omega
  | succ fuel ih =>
    intro n hn acc
    unfold natCharsF
    by_cases h10 : n < 10
    · rw [if_pos h10]
      show acc * 10 + dval (digitChar n) = acc * 10 ^ [digitChar n].length + n
      rw [dval_digitChar n h10]
      simp [pow_one]
    · rw [if_neg h10]
      rw [digitsValA_append]
      rw [ih (n / 10) (by omega) acc]
      show (acc * 10 ^ (natCharsF fuel (n / 10)).length + n / 10) * 10 + dval (digitChar (n % 10)) = _
      rw [dval_digitChar (n % 10) (by omega)]
      rw [List.length_append, List.length_singleton, pow_add, pow_one]
      ring_nf
      omega

lemma digitsValA_natChars (n : Nat) : digitsValA (natChars n) 0 = n := by
  unfold natChars
  rw [digitsValA_natCharsF (n + 1) n (Nat.lt_succ_self n) 0]
  simp

lemma digitsValA_pad2c (b : Nat) (hb : b < 100) : digitsValA (pad2c b) 0 = b := by
  unfold pad2c
  show (0 * 10 + dval (digitChar (b / 10))) * 10 + dval (digitChar (b % 10)) = b
  rw [dval_digitChar (b / 10) (by omega), dval_digitChar (b % 10) (by omega)]
  omega

lemma CURRENCY_RE_sub_nil : CURRENCY_RE_sub [] = [] := rfl

lemma CURRENCY_RE_sub_cons (c : Char) (l : List Char) :
    CURRENCY_RE_sub (c :: l) =
      if keepMoneyChar c then c :: CURRENCY_RE_sub l else CURRENCY_RE_sub l := rfl

lemma CURRENCY_RE_sub_append (l1 l2 : List Char) :
    CURRENCY_RE_sub (l1 ++ l2) = CURRENCY_RE_sub l1 ++ CURRENCY_RE_sub l2 := by
  induction l1 with
  | nil => rfl
  | cons c rest ih =>
    rw [List.cons_append, CURRENCY_RE_sub_cons, CURRENCY_RE_sub_cons, ih]
    by_cases h : keepMoneyChar c
    · rw [if_pos h, if_pos h, List.cons_append]
    · rw [if_neg h, if_neg h]

lemma CURRENCY_RE_sub_digits (l : List Char) (h : ∀ c ∈ l, c.isDigit = true) :
    CURRENCY_RE_sub l = l := by
  induction l with
  | nil => rfl
  | cons c rest ih =>
    rw [CURRENCY_RE_sub_cons,
      if_pos (keepMoneyChar_of_digit c (h c (List.mem_cons_self c rest)))]
    rw [ih (fun x hx => h x (List.mem_cons_of_mem c hx))]

lemma CURRENCY_RE_sub_reverse (l : List Char) :
    CURRENCY_RE_sub l.reverse = (CURRENCY_RE_sub l).reverse := by
  induction l with
  | nil => rfl
  | cons c rest ih =>
    rw [List.reverse_cons, CURRENCY_RE_sub_append, ih]
    by_cases h : keepMoneyChar c
    · rw [show CURRENCY_RE_sub [c] = [c] by rw [CURRENCY_RE_sub_cons, if_pos h]; rfl]
      rw [show CURRENCY_RE_sub (c :: rest) = c :: CURRENCY_RE_sub rest by
        rw [CURRENCY_RE_sub_cons, if_pos h]]
      rw [List.reverse_cons]
    · rw [show CURRENCY_RE_sub [c] = [] by rw [CURRENCY_RE_sub_cons, if_neg h]; rfl]
      rw [show CURRENCY_RE_sub (c :: rest) = CURRENCY_RE_sub rest by
        rw [CURRENCY_RE_sub_cons, if_neg h]]
      rw [List.append_nil]

lemma group3_small (r : List Char) (h : r.length ≤ 3) : group3 r = r := by
  rcases r with _ | ⟨a, _ | ⟨b, _ | ⟨c, _ | ⟨d, rest⟩⟩⟩⟩ <;> first | rfl | (simp at h)

lemma CURRENCY_RE_sub_group3_digits (fuel : Nat) :
    ∀ r : List Char, r.length ≤ fuel → (∀ c ∈ r, c.isDigit = true) →
      CURRENCY_RE_sub (group3 r) = r := by
  induction fuel with
  | zero =>
    intro r hlen _
    have : r = [] := List.eq_nil_of_length_eq_zero (Nat.le_zero.mp hlen)
    subst this
    rfl
  | succ fuel ih =>
    intro r hlen hdig
    rcases r with _ | ⟨a, _ | ⟨b, _ | ⟨c, _ | ⟨d, rest⟩⟩⟩⟩
    · rfl
    · rw [group3_small [a] (by simp)]
      exact CURRENCY_RE_sub_digits _ hdig
    · rw [group3_small [a, b] (by simp)]
      exact CURRENCY_RE_sub_digits _ hdig
    · rw [group3_small [a, b, c] (by simp)]
      exact CURRENCY_RE_sub_digits _ hdig
    · show CURRENCY_RE_sub (a :: b :: c :: ',' :: group3 (d :: rest)) = _
      have ha := hdig a (by simp)
      have hb := hdig b (by simp)
      have hc := hdig c (by simp)
      rw [CURRENCY_RE_sub_cons, if_pos (keepMoneyChar_of_digit a ha),
        CURRENCY_RE_sub_cons, if_pos (keepMoneyChar_of_digit b hb),
        CURRENCY_RE_sub_cons, if_pos (keepMoneyChar_of_digit c hc),
        CURRENCY_RE_sub_cons, if_neg (by decide)]
      rw [ih (d :: rest) (by simp at hlen ⊢; omega) (fun x hx => hdig x (by simp at hx ⊢; tauto))]

lemma CURRENCY_RE_sub_withCommas (ds : List Char) (h : ∀ c ∈ ds, c.isDigit = true) :
    CURRENCY_RE_sub (withCommas ds) = ds := by
  unfold withCommas
  rw [CURRENCY_RE_sub_reverse, CURRENCY_RE_sub_group3_digits ds.reverse.length ds.reverse
    le_rfl (fun c hc => h c (List.mem_reverse.mp hc)), List.reverse_reverse]

lemma pad2c_digits (b : Nat) : ∀ c ∈ pad2c b, c.isDigit = true := by
  intro c hc
  unfold pad2c at hc
  simp only [List.mem_cons, List.mem_singleton, List.not_mem_nil, or_false] at hc
  rcases hc with h | h <;> subst h <;> exact digitChar_isDigit _

lemma CURRENCY_RE_sub_moneyDigits (n : Nat) :
    CURRENCY_RE_sub (moneyDigits n) = natChars (n / 100) ++ '.' :: pad2c (n % 100) := by
  unfold moneyDigits
  rw [CURRENCY_RE_sub_append, CURRENCY_RE_sub_withCommas _ (natChars_digits (n / 100))]
  rw [CURRENCY_RE_sub_cons, if_pos (by decide)]
  rw [CURRENCY_RE_sub_digits (pad2c (n % 100)) (pad2c_digits (n % 100))]

lemma takeDigits_append_digits (ds r : List Char) (h : ∀ c ∈ ds, c.isDigit = true) :
    takeDigits (ds ++ r) = ds ++ takeDigits r := by
  induction ds with
  | nil => rfl
  | cons c rest ih =>
    rw [List.cons_append]
    show (if c.isDigit then c :: takeDigits (rest ++ r) else []) = _
    rw [if_pos (h c (List.mem_cons_self c rest)), ih (fun x hx => h x (List.mem_cons_of_mem c hx)),
      List.cons_append]

lemma dropDigits_append_digits (ds r : List Char) (h : ∀ c ∈ ds, c.isDigit = true) :
    dropDigits (ds ++ r) = dropDigits r := by
  induction ds with
  | nil => rfl
  | cons c rest ih =>
    rw [List.cons_append]
    show (if c.isDigit then dropDigits (rest ++ r) else c :: (rest ++ r)) = _
    rw [if_pos (h c (List.mem_cons_self c rest)), ih (fun x hx => h x (List.mem_cons_of_mem c hx))]

lemma takeDigits_nondigit (c : Char) (r : List Char) (h : ¬c.isDigit = true) :
    takeDigits (c :: r) = [] := by
  show (if c.isDigit then c :: takeDigits r else []) = []
  rw [if_neg h]

lemma dropDigits_nondigit (c : Char) (r : List Char) (h : ¬c.isDigit = true) :
    dropDigits (c :: r) = c :: r := by
  show (if c.isDigit then dropDigits r else c :: r) = c :: r
  rw [if_neg h]

lemma allDigits_of_mem (l : List Char) (h : ∀ c ∈ l, c.isDigit = true) :
    allDigits l = true := by
  induction l with
  | nil => rfl
  | cons c rest ih =>
    show (c.isDigit && allDigits rest) = true
    rw [h c (List.mem_cons_self c rest), ih (fun x hx => h x (List.mem_cons_of_mem c hx))]
    rfl

lemma pyFloatPos_digits_dot_pad2 (a b : Nat) (hb : b < 100) :
    pyFloatPos (natChars a ++ '.' :: pad2c b) = some ((a : ℚ) + (b : ℚ) / 100) := by
  unfold pyFloatPos
  rw [dropDigits_append_digits _ _ (natChars_digits a),
    dropDigits_nondigit '.' _ (by decide)]
  rw [takeDigits_append_digits _ _ (natChars_digits a),
    takeDigits_nondigit '.' _ (by decide), List.append_nil]
  rw [if_neg (fun hcon => List.noConfusion hcon)]
  rw [if_pos (by rfl : (('.' :: pad2c b).headD ' ' = '.'))]
  rw [if_pos (show allDigits ('.' :: pad2c b).tail = true ∧
      (¬(natChars a).isEmpty = true ∨ ¬(('.' :: pad2c b).tail).isEmpty = true) from
    ⟨allDigits_of_mem _ (pad2c_digits b), Or.inl (by
      simp [List.isEmpty_iff, natChars_ne_nil a])⟩)]
  rw [digitsValA_natChars a]
  rw [show ('.' :: pad2c b).tail = pad2c b from rfl]
  rw [digitsValA_pad2c b hb]
  rw [show (pad2c b).length = 2 from rfl]
  norm_num

lemma pyFloatPos_reparse_cents (n : Nat) :
    pyFloatPos (CURRENCY_RE_sub (moneyDigits n)) = some ((n : ℚ) / 100) := by
  rw [CURRENCY_RE_sub_moneyDigits, pyFloatPos_digits_dot_pad2 (n / 100) (n % 100) (by omega)]
  have : ((n / 100 : ℕ) : ℚ) + ((n % 100 : ℕ) : ℚ) / 100 = (n : ℚ) / 100 := by
    have hn0 : (n / 100) * 100 + n % 100 = n := by omega
    have hn : ((n / 100 : ℕ) : ℚ) * 100 + ((n % 100 : ℕ) : ℚ) = (n : ℚ) := by
      exact_mod_cast hn0
    field_simp
    linarith [hn]
  rw [this]

lemma pyFloat_reparse_cents (n : Nat) :
    pyFloat (CURRENCY_RE_sub (moneyDigits n)) = some ((n : ℚ) / 100) := by
  have hform := CURRENCY_RE_sub_moneyDigits n
  rcases hnc : natChars (n / 100) with _ | ⟨c, rest⟩
  · exact absurd hnc (natChars_ne_nil _)
  · have hcd : c.isDigit = true :=
      natChars_digits (n / 100) c (by rw [hnc]; exact List.mem_cons_self c rest)
    rw [hform, hnc, List.cons_append]
    show (if c = '-' then
        match pyFloatPos (rest ++ '.' :: pad2c (n % 100)) with
        | some q => some (-q)
        | none => none
      else pyFloatPos (c :: (rest ++ '.' :: pad2c (n % 100)))) = some ((n : ℚ) / 100)
    rw [if_neg (digit_ne_minus c hcd), ← List.cons_append, ← hnc, ← hform]
    exact pyFloatPos_reparse_cents n

lemma reparse_moneyDisplay (v : ℚ) (z : ℤ) (hz : v * 100 = (z : ℚ)) :
    pyFloat (CURRENCY_RE_sub (moneyDisplay v).data) = some v := by
  by_cases hneg : v < 0
  · have habs : |v| = -v := abs_of_neg hneg
    have hzneg : z < 0 := by
      have : (z : ℚ) < 0 := by rw [← hz]; nlinarith
      exact_mod_cast this
    have hrhe : rhe (|v| * 100) = -z := by
      rw [habs, show -v * 100 = ((-z : ℤ) : ℚ) by push_cast; linarith [hz], rhe_intCast]
    have hdata : (moneyDisplay v).data =
        '$' :: '-' :: moneyDigits (rhe (|v| * 100)).toNat := by
      unfold moneyDisplay
      rw [if_pos hneg]
      rfl
    rw [hdata, CURRENCY_RE_sub_cons, if_neg (by decide), CURRENCY_RE_sub_cons,
      if_pos (by decide), hrhe]
    show (if ('-' : Char) = '-' then
        match pyFloatPos (CURRENCY_RE_sub (moneyDigits (-z).toNat)) with
        | some q => some (-q)
        | none => none
      else pyFloatPos ('-' :: CURRENCY_RE_sub (moneyDigits (-z).toNat))) = some v
    rw [if_pos rfl, pyFloatPos_reparse_cents ((-z).toNat)]
    have hcast : (((-z).toNat : ℕ) : ℚ) = ((-z : ℤ) : ℚ) := by
      exact_mod_cast Int.toNat_of_nonneg (by omega)
    rw [hcast]
    show some (-(((-z : ℤ) : ℚ) / 100)) = some v
    have : -(((-z : ℤ) : ℚ) / 100) = v := by
      push_cast
      nlinarith [hz]
    rw [this]
  · have h0 : 0 ≤ v := not_lt.mp hneg
    have hzpos : 0 ≤ z := by
      have : (0 : ℚ) ≤ (z : ℚ) := by rw [← hz]; nlinarith
      exact_mod_cast this
    have hrhe : rhe (|v| * 100) = z := by
      rw [abs_of_nonneg h0, hz, rhe_intCast]
    have hdata : (moneyDisplay v).data = '$' :: moneyDigits (rhe (|v| * 100)).toNat := by
      unfold moneyDisplay
      rw [if_neg hneg]
      rfl
    rw [hdata, CURRENCY_RE_sub_cons, if_neg (by decide), hrhe,
      pyFloat_reparse_cents (z.toNat)]
    have hcast : ((z.toNat : ℕ) : ℚ) = (z : ℚ) := by
      exact_mod_cast Int.toNat_of_nonneg hzpos
    rw [hcast]
    have : ((z : ℚ)) / 100 = v := by linarith [hz]
    rw [this]

lemma parse_money_some_inv (s : String) (v : ℚ) (d : String)
    (h : parse_money (some s) = (some v, d)) :
    pyFloat (CURRENCY_RE_sub s.data) = some v ∧ d = moneyDisplay v := by
  by_cases hs : s = ""
  · rw [parse_money_some, if_pos hs] at h
    simp [Prod.ext_iff] at h
  · rw [parse_money_some, if_neg hs] at h
    cases hf : pyFloat (CURRENCY_RE_sub s.data) with
    | none =>
      rw [hf] at h
      simp [Prod.ext_iff] at h
    | some f =>
      rw [hf] at h
      simp only [Prod.mk.injEq, Option.some.injEq] at h
      rcases h with ⟨rfl, h2⟩
      exact ⟨rfl, h2.symm⟩

lemma rhe_half_even (z : ℤ) (q : ℚ) (h : q = (z : ℚ) + 1 / 2) (h2 : 2 ∣ z) : rhe q = z := by
  subst h
  have hf : ⌊(z : ℚ) + 1 / 2⌋ = z := by
    rw [Int.floor_eq_iff]
    constructor
    · norm_num
    · norm_num
  unfold rhe
  rw [hf]
  have h12 : (z : ℚ) + 1 / 2 - z = 1 / 2 := by ring
  rw [h12, if_neg (by norm_num), if_neg (by norm_num), if_pos h2]

lemma moneyDisplay_eval_half (q : ℚ) (z : ℕ) (h0 : 0 ≤ q)
    (h : q * 100 = (z : ℚ) + 1 / 2) (h2 : 2 ∣ z) :
    moneyDisplay q = String.mk ('$' :: moneyDigits z) := by
  unfold moneyDisplay
  rw [if_neg (not_lt.mpr h0), abs_of_nonneg h0]
  rw [rhe_half_even (z : ℤ) _ (by rw [h]; push_cast; ring) (by exact_mod_cast h2)]
  rw [Int.toNat_natCast]
  simp

/-! ### Claim C9 -/

/-- C9 counterexample: money canonicalization is not stable under
re-parsing in general: `"1.005"` parses to the value `1.005` with display
`"$1.00"` (two-decimal rounding), and re-parsing that display returns the
different value `1`. -/
theorem parse_money_reparse_changes_value :
    parse_money (some "1.005") = (some ((201 : ℚ) / 200), "$1.00") ∧
    parse_money (some "$1.00") = (some (1 : ℚ), "$1.00") ∧
    ¬((201 : ℚ) / 200 = 1) := by
  have hf1 : pyFloat (CURRENCY_RE_sub "1.005".data) = some ((201 : ℚ) / 200) := by
    show pyFloat (CURRENCY_RE_sub ['1', '.', '0', '0', '5']) = _
    simp +decide [CURRENCY_RE_sub, keepMoneyChar, pyFloat, pyFloatPos, takeDigits,
      dropDigits, digitsValA, dval, allDigits]
    norm_num
  have hf2 : pyFloat (CURRENCY_RE_sub "$1.00".data) = some (1 : ℚ) := by
    show pyFloat (CURRENCY_RE_sub ['$', '1', '.', '0', '0']) = _
    simp +decide [CURRENCY_RE_sub, keepMoneyChar, pyFloat, pyFloatPos, takeDigits,
      dropDigits, digitsValA, dval, allDigits]
  refine ⟨?_, ?_, by norm_num⟩
  · rw [parse_money_some, if_neg (by decide), hf1]
    show (some ((201 : ℚ) / 200), moneyDisplay ((201 : ℚ) / 200)) = _
    rw [moneyDisplay_eval_half ((201 : ℚ) / 200) 100 (by norm_num) (by norm_num) (by norm_num)]
    refine Prod.ext rfl ?_
    decide
  · rw [parse_money_some, if_neg (by decide), hf2]
    show (some (1 : ℚ), moneyDisplay (1 : ℚ)) = _
    rw [moneyDisplay_eval 1 100 (by norm_num) (by norm_num)]
    refine Prod.ext rfl ?_
    decide

/-- C9 (amended): for every input on which `parse_money` returns an amount
`v` and a display string, if `v` has at most two fraction digits
(`v * 100` is an integer — true of every actual monetary amount), applying
`parse_money` to the display returns the same amount and the same display. -/
theorem parse_money_display_reparse_stable (s d : String) (v : ℚ) (z : ℤ)
    (h : parse_money (some s) = (some v, d)) (hz : v * 100 = (z : ℚ)) :
    parse_money (some d) = (some v, d) := by
  obtain ⟨hf, hd⟩ := parse_money_some_inv s v d h
  subst hd
  have hre := reparse_moneyDisplay v z hz
  have hne : ¬moneyDisplay v = "" := by
    intro hcon
    have h2 := congrArg String.data hcon
    exact List.noConfusion h2
  rw [parse_money_some, if_neg hne, hre]

/-- C9 witness: `"7.5"` parses to `7.5` with display `"$7.50"`, and
re-parsing `"$7.50"` returns the same value and display. -/
theorem parse_money_display_reparse_stable_witness :
    parse_money (some "$7.50") = (some ((15 : ℚ) / 2), "$7.50") := by
  have hf : pyFloat (CURRENCY_RE_sub "7.5".data) = some ((15 : ℚ) / 2) := by
    show pyFloat (CURRENCY_RE_sub ['7', '.', '5']) = _
    simp +decide [CURRENCY_RE_sub, keepMoneyChar, pyFloat, pyFloatPos, takeDigits,
      dropDigits, digitsValA, dval, allDigits]
    norm_num
  have h : parse_money (some "7.5") = (some ((15 : ℚ) / 2), "$7.50") := by
    rw [parse_money_some, if_neg (by decide), hf]
    show (some ((15 : ℚ) / 2), moneyDisplay ((15 : ℚ) / 2)) = _
    rw [moneyDisplay_eval ((15 : ℚ) / 2) 750 (by norm_num) (by norm_num)]
    refine Prod.ext rfl ?_
    decide
  exact parse_money_display_reparse_stable "7.5" "$7.50" ((15 : ℚ) / 2) 750 h (by norm_num)

/-! ### Token-level lemmas for the date parsers -/

lemma digitChar_not_space (k : Nat) : pyIsSpace (digitChar k) = false := by
  rcases k with _ | _ | _ | _ | _ | _ | _ | _ | _ | k <;> rfl

lemma lowerc_of_digit (a : Char) (h : a.isDigit = true) : lowerc a = a := by
  unfold lowerc
  rw [if_neg (fun hc => absurd (hc ▸ h) (by decide)),
    if_neg (fun hc => absurd (hc ▸ h) (by decide)),
    if_neg (fun hc => absurd (hc ▸ h) (by decide)),
    if_neg (fun hc => absurd (hc ▸ h) (by decide)),
    if_neg (fun hc => absurd (hc ▸ h) (by decide)),
    if_neg (fun hc => absurd (hc ▸ h) (by decide)),
    if_neg (fun hc => absurd (hc ▸ h) (by decide)),
    if_neg (fun hc => absurd (hc ▸ h) (by decide)),
    if_neg (fun hc => absurd (hc ▸ h) (by decide)),
    if_neg (fun hc => absurd (hc ▸ h) (by decide)),
    if_neg (fun hc => absurd (hc ▸ h) (by decide)),
    if_neg (fun hc => absurd (hc ▸ h) (by decide)),
    if_neg (fun hc => absurd (hc ▸ h) (by decide)),
    if_neg (fun hc => absurd (hc ▸ h) (by decide)),
    if_neg (fun hc => absurd (hc ▸ h) (by decide)),
    if_neg (fun hc => absurd (hc ▸ h) (by decide)),
    if_neg (fun hc => absurd (hc ▸ h) (by decide)),
    if_neg (fun hc => absurd (hc ▸ h) (by decide)),
    if_neg (fun hc => absurd (hc ▸ h) (by decide)),
    if_neg (fun hc => absurd (hc ▸ h) (by decide)),
    if_neg (fun hc => absurd (hc ▸ h) (by decide)),
    if_neg (fun hc => absurd (hc ▸ h) (by decide)),
    if_neg (fun hc => absurd (hc ▸ h) (by decide)),
    if_neg (fun hc => absurd (hc ▸ h) (by decide)),
    if_neg (fun hc => absurd (hc ▸ h) (by decide)),
    if_neg (fun hc => absurd (hc ▸ h) (by decide))]

lemma monFromAbbr_none_digit (a b c : Char) (ha : a.isDigit = true) :
    monFromAbbr (lowerc a) (lowerc b) (lowerc c) = none := by
  rw [lowerc_of_digit a ha]
  unfold monFromAbbr
  rw [if_neg (fun hc => absurd (hc.1 ▸ ha) (by decide)),
    if_neg (fun hc => absurd (hc.1 ▸ ha) (by decide)),
    if_neg (fun hc => absurd (hc.1 ▸ ha) (by decide)),
    if_neg (fun hc => absurd (hc.1 ▸ ha) (by decide)),
    if_neg (fun hc => absurd (hc.1 ▸ ha) (by decide)),
    if_neg (fun hc => absurd (hc.1 ▸ ha) (by decide)),
    if_neg (fun hc => absurd (hc.1 ▸ ha) (by decide)),
    if_neg (fun hc => absurd (hc.1 ▸ ha) (by decide)),
    if_neg (fun hc => absurd (hc.1 ▸ ha) (by decide)),
    if_neg (fun hc => absurd (hc.1 ▸ ha) (by decide)),
    if_neg (fun hc => absurd (hc.1 ▸ ha) (by decide)),
    if_neg (fun hc => absurd (hc.1 ▸ ha) (by decide))]

lemma monAbbrAt_digit (c : Char) (l : List Char) (hc : c.isDigit = true) :
    monAbbrAt (c :: l) = none := by
  rcases l with _ | ⟨b, _ | ⟨c2, rest⟩⟩
  · rfl
  · rfl
  · show (match monFromAbbr (lowerc c) (lowerc b) (lowerc c2) with
      | some m => some (m, rest) | none => none) = none
    rw [monFromAbbr_none_digit c b c2 hc]

lemma monAbbrAt_render (m : Nat) (h1 : 1 ≤ m) (h2 : m ≤ 12) (rest : List Char) :
    monAbbrAt (monAbbrChars m ++ rest) = some (m, rest) := by
  interval_cases m <;> rfl

lemma wsPlus_space (l : List Char) : wsPlus (' ' :: l) = some (dropSpaces l) := rfl

lemma wsPlus_nonspace (c : Char) (l : List Char) (h : pyIsSpace c = false) :
    wsPlus (c :: l) = none := by
  show (if pyIsSpace c then some (dropSpaces l) else none) = none
  rw [h]
  rfl

lemma dropSpaces_cons_nonspace (c : Char) (l : List Char) (h : pyIsSpace c = false) :
    dropSpaces (c :: l) = c :: l := by
  show (if pyIsSpace c then dropSpaces l else c :: l) = c :: l
  rw [h]
  rfl

lemma lit_same (ch : Char) (l : List Char) : lit ch (ch :: l) = some l := by
  show (if ch = ch then some l else none) = some l
  rw [if_pos rfl]

lemma lit_ne (ch c : Char) (l : List Char) (h : ¬c = ch) : lit ch (c :: l) = none := by
  show (if c = ch then some l else none) = none
  rw [if_neg h]

lemma digit_ne_char (c x : Char) (hc : c.isDigit = true) (hx : x.isDigit = false) :
    ¬c = x := by
  intro he
  rw [he, hx] at hc
  exact Bool.noConfusion hc

lemma year4_render (y : Nat) (hy : y ≤ 9999) (rest : List Char) :
    year4 (year4chars y ++ rest) = some (y, rest) := by
  show year4 (digitChar (y / 1000) :: digitChar (y / 100 % 10) :: digitChar (y / 10 % 10) ::
    digitChar (y % 10) :: rest) = some (y, rest)
  show (if (digitChar (y / 1000)).isDigit = true ∧ (digitChar (y / 100 % 10)).isDigit = true ∧
      (digitChar (y / 10 % 10)).isDigit = true ∧ (digitChar (y % 10)).isDigit = true then
    some (((dval (digitChar (y / 1000)) * 10 + dval (digitChar (y / 100 % 10))) * 10 +
      dval (digitChar (y / 10 % 10))) * 10 + dval (digitChar (y % 10)), rest)
    else none) = some (y, rest)
  rw [if_pos ⟨digitChar_isDigit _, digitChar_isDigit _, digitChar_isDigit _, digitChar_isDigit _⟩]
  rw [dval_digitChar (y / 1000) (by omega), dval_digitChar (y / 100 % 10) (by omega),
    dval_digitChar (y / 10 % 10) (by omega), dval_digitChar (y % 10) (by omega)]
  simp only [Option.some.injEq, Prod.mk.injEq]
  constructor
  · omega
  · trivial

lemma num2_pad2 (lo hi v : Nat) (h1 : lo ≤ v) (h2 : v ≤ hi) (hv : v < 100)
    (rest : List Char) :
    num2 lo hi (pad2c v ++ rest) = some (v, rest) := by
  show num2 lo hi (digitChar (v / 10) :: digitChar (v % 10) :: rest) = some (v, rest)
  show (if (digitChar (v / 10)).isDigit = true ∧ (digitChar (v % 10)).isDigit = true ∧
      lo ≤ dval (digitChar (v / 10)) * 10 + dval (digitChar (v % 10)) ∧
      dval (digitChar (v / 10)) * 10 + dval (digitChar (v % 10)) ≤ hi then
    some (dval (digitChar (v / 10)) * 10 + dval (digitChar (v % 10)), rest) else none) =
    some (v, rest)
  rw [dval_digitChar (v / 10) (by omega), dval_digitChar (v % 10) (by omega)]
  rw [if_pos ⟨digitChar_isDigit _, digitChar_isDigit _, by omega, by omega⟩]
  simp only [Option.some.injEq, Prod.mk.injEq]
  constructor
  · omega
  · trivial

lemma num2_second_nondigit (lo hi : Nat) (a x : Char) (rest : List Char)
    (hx : x.isDigit = false) :
    num2 lo hi (a :: x :: rest) = none := by
  show (if a.isDigit = true ∧ x.isDigit = true ∧ lo ≤ dval a * 10 + dval x ∧
      dval a * 10 + dval x ≤ hi then some (dval a * 10 + dval x, rest) else none) = none
  rw [if_neg (fun hc => by rw [hx] at hc; exact Bool.noConfusion hc.2.1)]

lemma num2_inv (lo hi : Nat) (a b : Char) (rest : List Char) (n : Nat) (r : List Char)
    (h : num2 lo hi (a :: b :: rest) = some (n, r)) :
    n = dval a * 10 + dval b ∧ r = rest := by
  by_cases hcond : a.isDigit = true ∧ b.isDigit = true ∧ lo ≤ dval a * 10 + dval b ∧
      dval a * 10 + dval b ≤ hi
  · rw [show num2 lo hi (a :: b :: rest) = some (dval a * 10 + dval b, rest) from by
      show (if a.isDigit = true ∧ b.isDigit = true ∧ lo ≤ dval a * 10 + dval b ∧
        dval a * 10 + dval b ≤ hi then some (dval a * 10 + dval b, rest) else none) = _
      rw [if_pos hcond]] at h
    simp only [Option.some.injEq, Prod.mk.injEq] at h
    exact ⟨h.1.symm, h.2.symm⟩
  · rw [show num2 lo hi (a :: b :: rest) = none from by
      show (if a.isDigit = true ∧ b.isDigit = true ∧ lo ≤ dval a * 10 + dval b ∧
        dval a * 10 + dval b ≤ hi then some (dval a * 10 + dval b, rest) else none) = _
      rw [if_neg hcond]] at h
    exact Option.noConfusion h

lemma num1_digit (d : Nat) (h1 : 1 ≤ d) (h9 : d ≤ 9) (rest : List Char) :
    num1 (digitChar d :: rest) = some (d, rest) := by
  show (if (digitChar d).isDigit = true ∧ 1 ≤ dval (digitChar d) then
    some (dval (digitChar d), rest) else none) = some (d, rest)
  rw [dval_digitChar d (by omega)]
  rw [if_pos ⟨digitChar_isDigit _, h1⟩]

lemma num1_zero (rest : List Char) : num1 (digitChar 0 :: rest) = none := by
  show (if (digitChar 0).isDigit = true ∧ 1 ≤ dval (digitChar 0) then
    some (dval (digitChar 0), rest) else none) = none
  rw [if_neg (by decide)]

lemma num1_inv (a : Char) (rest : List Char) (n : Nat) (r : List Char)
    (h : num1 (a :: rest) = some (n, r)) : n = dval a ∧ r = rest := by
  by_cases hcond : a.isDigit = true ∧ 1 ≤ dval a
  · rw [show num1 (a :: rest) = some (dval a, rest) from by
      show (if a.isDigit = true ∧ 1 ≤ dval a then some (dval a, rest) else none) = _
      rw [if_pos hcond]] at h
    simp only [Option.some.injEq, Prod.mk.injEq] at h
    exact ⟨h.1.symm, h.2.symm⟩
  · rw [show num1 (a :: rest) = none from by
      show (if a.isDigit = true ∧ 1 ≤ dval a then some (dval a, rest) else none) = _
      rw [if_neg hcond]] at h
    exact Option.noConfusion h

lemma withNum_two_some (two : List Char → Option (Nat × List Char)) (l : List Char)
    (k : Nat → List Char → Option PyDate) (n : Nat) (r : List Char) (v : PyDate)
    (h2 : two l = some (n, r)) (hk : k n r = some v) :
    withNum two l k = some v := by
  unfold withNum
  rw [h2]
  show (match k n r with
    | some v => some v
    | none => match num1 l with
      | some (n1, r1) => k n1 r1
      | none => none) = some v
  rw [hk]

lemma withNum_two_none (two : List Char → Option (Nat × List Char)) (l : List Char)
    (k : Nat → List Char → Option PyDate) (n1 : Nat) (r1 : List Char)
    (h2 : two l = none) (h1 : num1 l = some (n1, r1)) :
    withNum two l k = k n1 r1 := by
  unfold withNum
  rw [h2]
  show (match num1 l with
    | some (n1, r1) => k n1 r1
    | none => none) = k n1 r1
  rw [h1]

lemma withNum_backtrack (two : List Char → Option (Nat × List Char)) (l : List Char)
    (k : Nat → List Char → Option PyDate) (n : Nat) (r : List Char) (n1 : Nat) (r1 : List Char)
    (h2 : two l = some (n, r)) (hk : k n r = none) (h1 : num1 l = some (n1, r1)) :
    withNum two l k = k n1 r1 := by
  unfold withNum
  rw [h2]
  show (match k n r with
    | some v => some v
    | none => match num1 l with
      | some (n1, r1) => k n1 r1
      | none => none) = k n1 r1
  rw [hk, h1]

lemma withNum_backtrack_fail (two : List Char → Option (Nat × List Char)) (l : List Char)
    (k : Nat → List Char → Option PyDate) (n : Nat) (r : List Char)
    (h2 : two l = some (n, r)) (hk : k n r = none) (h1 : num1 l = none) :
    withNum two l k = none := by
  unfold withNum
  rw [h2]
  show (match k n r with
    | some v => some v
    | none => match num1 l with
      | some (n1, r1) => k n1 r1
      | none => none) = none
  rw [hk, h1]

lemma withNum_all_fail (two : List Char → Option (Nat × List Char)) (l : List Char)
    (k : Nat → List Char → Option PyDate)
    (h2 : two l = none) (h1 : num1 l = none) :
    withNum two l k = none := by
  unfold withNum
  rw [h2]
  show (match num1 l with
    | some (n1, r1) => k n1 r1
    | none => none) = none
  rw [h1]

/-! ### Round B: per-format parse lemmas -/

lemma dropSpaces_year4 (y : Nat) : dropSpaces (year4chars y) = year4chars y :=
  dropSpaces_cons_nonspace _ _ (digitChar_not_space _)

lemma year4_render_nil (y : Nat) (hy : y ≤ 9999) : year4 (year4chars y) = some (y, []) := by
  have h := year4_render y hy []
  rwa [List.append_nil] at h

lemma fmt1_tail (y m d : Nat) (hy : y ≤ 9999) :
    (wsPlus (' ' :: year4chars y)).bind (fun l4 =>
      (year4 l4).bind fun yp =>
      if yp.2 = [] then some (⟨yp.1, m, d⟩ : PyDate) else none) = some ⟨y, m, d⟩ := by
  rw [wsPlus_space, dropSpaces_year4]
  simp only [Option.some_bind]
  rw [year4_render_nil y hy]
  simp only [Option.some_bind]
  simp

lemma parseFmt1_render1 (p : Bool) (y m d : Nat) (hm1 : 1 ≤ m) (hm2 : m ≤ 12)
    (hd1 : 1 ≤ d) (hd2 : d ≤ 31) (hy : y ≤ 9999) :
    parseFmt1 (render1 p y m d) = some ⟨y, m, d⟩ := by
  unfold render1 parseFmt1
  rw [monAbbrAt_render m hm1 hm2]
  simp only [Option.some_bind]
  by_cases hpad : p = true ∨ 10 ≤ d
  · rw [show dayChars p d = pad2c d from by unfold dayChars; rw [if_pos hpad]]
    rw [show pad2c d ++ ' ' :: year4chars y =
      digitChar (d / 10) :: digitChar (d % 10) :: (' ' :: year4chars y) from rfl]
    rw [wsPlus_space, dropSpaces_cons_nonspace _ _ (digitChar_not_space _)]
    simp only [Option.some_bind]
    exact withNum_two_some _ _ _ d (' ' :: year4chars y) ⟨y, m, d⟩
      (num2_pad2 1 31 d hd1 hd2 (by omega) (' ' :: year4chars y))
      (fmt1_tail y m d hy)
  · have hd9 : d ≤ 9 := by
      rcases Nat.lt_or_ge d 10 with h | h
      · omega
      · exact absurd (Or.inr h) hpad
    rw [show dayChars p d = [digitChar d] from by unfold dayChars; rw [if_neg hpad]]
    rw [show [digitChar d] ++ ' ' :: year4chars y =
      digitChar d :: (' ' :: year4chars y) from rfl]
    rw [wsPlus_space, dropSpaces_cons_nonspace _ _ (digitChar_not_space _)]
    simp only [Option.some_bind]
    refine withNum_two_none _ _ _ d (' ' :: year4chars y) ?_ ?_ |>.trans ?_
    · exact num2_second_nondigit 1 31 _ ' ' _ (by decide)
    · exact num1_digit d hd1 hd9 _
    · exact fmt1_tail y m d hy

lemma fmt2_tail (y m d : Nat) (hy : y ≤ 9999) :
    (lit ',' (',' :: ' ' :: year4chars y)).bind (fun l4 =>
      (wsPlus l4).bind fun l5 =>
      (year4 l5).bind fun yp =>
      if yp.2 = [] then some (⟨yp.1, m, d⟩ : PyDate) else none) = some ⟨y, m, d⟩ := by
  rw [lit_same]
  simp only [Option.some_bind]
  rw [wsPlus_space, dropSpaces_year4]
  simp only [Option.some_bind]
  rw [year4_render_nil y hy]
  simp only [Option.some_bind]
  simp

lemma parseFmt2_render2 (p : Bool) (y m d : Nat) (hm1 : 1 ≤ m) (hm2 : m ≤ 12)
    (hd1 : 1 ≤ d) (hd2 : d ≤ 31) (hy : y ≤ 9999) :
    parseFmt2 (render2 p y m d) = some ⟨y, m, d⟩ := by
  unfold render2 parseFmt2
  rw [monAbbrAt_render m hm1 hm2]
  simp only [Option.some_bind]
  by_cases hpad : p = true ∨ 10 ≤ d
  · rw [show dayChars p d = pad2c d from by unfold dayChars; rw [if_pos hpad]]
    rw [show pad2c d ++ ',' :: ' ' :: year4chars y =
      digitChar (d / 10) :: digitChar (d % 10) :: (',' :: ' ' :: year4chars y) from rfl]
    rw [wsPlus_space, dropSpaces_cons_nonspace _ _ (digitChar_not_space _)]
    simp only [Option.some_bind]
    exact withNum_two_some _ _ _ d (',' :: ' ' :: year4chars y) ⟨y, m, d⟩
      (num2_pad2 1 31 d hd1 hd2 (by omega) (',' :: ' ' :: year4chars y))
      (fmt2_tail y m d hy)
  · have hd9 : d ≤ 9 := by
      rcases Nat.lt_or_ge d 10 with h | h
      · omega
      · exact absurd (Or.inr h) hpad
    rw [show dayChars p d = [digitChar d] from by unfold dayChars; rw [if_neg hpad]]
    rw [show [digitChar d] ++ ',' :: ' ' :: year4chars y =
      digitChar d :: (',' :: ' ' :: year4chars y) from rfl]
    rw [wsPlus_space, dropSpaces_cons_nonspace _ _ (digitChar_not_space _)]
    simp only [Option.some_bind]
    refine withNum_two_none _ _ _ d (',' :: ' ' :: year4chars y) ?_ ?_ |>.trans ?_
    · exact num2_second_nondigit 1 31 _ ',' _ (by decide)
    · exact num1_digit d hd1 hd9 _
    · exact fmt2_tail y m d hy

lemma parseFmt3_render3 (y m d : Nat) (hm1 : 1 ≤ m) (hm2 : m ≤ 12)
    (hd1 : 1 ≤ d) (hd2 : d ≤ 31) (hy : y ≤ 9999) :
    parseFmt3 (render3 y m d) = some ⟨y, m, d⟩ := by
  unfold render3 parseFmt3
  refine withNum_two_some _ _ _ m (' ' :: (pad2c d ++ ' ' :: year4chars y)) ⟨y, m, d⟩
    (num2_pad2 1 12 m hm1 hm2 (by omega) _) ?_
  show (wsPlus (' ' :: (pad2c d ++ ' ' :: year4chars y))).bind _ = some (⟨y, m, d⟩ : PyDate)
  rw [show pad2c d ++ ' ' :: year4chars y =
    digitChar (d / 10) :: digitChar (d % 10) :: (' ' :: year4chars y) from rfl]
  rw [wsPlus_space, dropSpaces_cons_nonspace _ _ (digitChar_not_space _)]
  simp only [Option.some_bind]
  exact withNum_two_some _ _ _ d (' ' :: year4chars y) ⟨y, m, d⟩
    (num2_pad2 1 31 d hd1 hd2 (by omega) (' ' :: year4chars y))
    (fmt1_tail y m d hy)

lemma fmt4_tail (y m d : Nat) (hy : y ≤ 9999) :
    (lit '/' ('/' :: year4chars y)).bind (fun l4 =>
      (year4 l4).bind fun yp =>
      if yp.2 = [] then some (⟨yp.1, m, d⟩ : PyDate) else none) = some ⟨y, m, d⟩ := by
  rw [lit_same]
  simp only [Option.some_bind]
  rw [year4_render_nil y hy]
  simp only [Option.some_bind]
  simp

lemma parseFmt4_render4 (y m d : Nat) (hm1 : 1 ≤ m) (hm2 : m ≤ 12)
    (hd1 : 1 ≤ d) (hd2 : d ≤ 31) (hy : y ≤ 9999) :
    parseFmt4 (render4 y m d) = some ⟨y, m, d⟩ := by
  unfold render4 parseFmt4
  refine withNum_two_some _ _ _ m ('/' :: (pad2c d ++ '/' :: year4chars y)) ⟨y, m, d⟩
    (num2_pad2 1 12 m hm1 hm2 (by omega) _) ?_
  show (lit '/' ('/' :: (pad2c d ++ '/' :: year4chars y))).bind _ = some (⟨y, m, d⟩ : PyDate)
  rw [lit_same]
  simp only [Option.some_bind]
  rw [show pad2c d ++ '/' :: year4chars y =
    digitChar (d / 10) :: digitChar (d % 10) :: ('/' :: year4chars y) from rfl]
  exact withNum_two_some _ _ _ d ('/' :: year4chars y) ⟨y, m, d⟩
    (num2_pad2 1 31 d hd1 hd2 (by omega) ('/' :: year4chars y))
    (fmt4_tail y m d hy)

lemma parseFmt5_render5 (y m d : Nat) (hm1 : 1 ≤ m) (hm2 : m ≤ 12)
    (hd1 : 1 ≤ d) (hd2 : d ≤ 31) (hy : y ≤ 9999) :
    parseFmt5 (render5 y m d) = some ⟨y, m, d⟩ := by
  unfold render5 parseFmt5
  rw [year4_render y hy ('-' :: (pad2c m ++ '-' :: pad2c d))]
  simp only [Option.some_bind]
  rw [lit_same]
  simp only [Option.some_bind]
  refine withNum_two_some _ _ _ m ('-' :: pad2c d) ⟨y, m, d⟩
    (num2_pad2 1 12 m hm1 hm2 (by omega) _) ?_
  show (lit '-' ('-' :: pad2c d)).bind _ = some (⟨y, m, d⟩ : PyDate)
  rw [lit_same]
  simp only [Option.some_bind]
  refine (withNum_two_some _ _ _ d [] ⟨y, m, d⟩ ?_ ?_)
  · have h := num2_pad2 1 31 d hd1 hd2 (by omega) []
    rwa [List.append_nil] at h
  · simp

lemma parseFmt1_digit (c : Char) (l : List Char) (hc : c.isDigit = true) :
    parseFmt1 (c :: l) = none := by
  unfold parseFmt1
  rw [monAbbrAt_digit c l hc]
  rfl

lemma parseFmt2_digit (c : Char) (l : List Char) (hc : c.isDigit = true) :
    parseFmt2 (c :: l) = none := by
  unfold parseFmt2
  rw [monAbbrAt_digit c l hc]
  rfl

lemma parseFmt1_render2 (p : Bool) (y m d : Nat) (hm1 : 1 ≤ m) (hm2 : m ≤ 12)
    (hd1 : 1 ≤ d) (hd2 : d ≤ 31) :
    parseFmt1 (render2 p y m d) = none := by
  unfold render2 parseFmt1
  rw [monAbbrAt_render m hm1 hm2]
  simp only [Option.some_bind]
  by_cases hpad : p = true ∨ 10 ≤ d
  · rw [show dayChars p d = pad2c d from by unfold dayChars; rw [if_pos hpad]]
    rw [show pad2c d ++ ',' :: ' ' :: year4chars y =
      digitChar (d / 10) :: digitChar (d % 10) :: (',' :: ' ' :: year4chars y) from rfl]
    rw [wsPlus_space, dropSpaces_cons_nonspace _ _ (digitChar_not_space _)]
    simp only [Option.some_bind]
    by_cases hd10 : 10 ≤ d
    · refine (withNum_backtrack _ _ _ d (',' :: ' ' :: year4chars y) (d / 10)
        (digitChar (d % 10) :: ',' :: ' ' :: year4chars y)
        (num2_pad2 1 31 d hd1 hd2 (by omega) _) ?_
        (num1_digit (d / 10) (by omega) (by omega) _)).trans ?_
      · show (wsPlus (',' :: ' ' :: year4chars y)).bind _ = none
        rw [wsPlus_nonspace _ _ (by decide)]
        rfl
      · show (wsPlus (digitChar (d % 10) :: ',' :: ' ' :: year4chars y)).bind _ = none
        rw [wsPlus_nonspace _ _ (digitChar_not_space _)]
        rfl
    · refine withNum_backtrack_fail _ _ _ d (',' :: ' ' :: year4chars y)
        (num2_pad2 1 31 d hd1 hd2 (by omega) _) ?_ ?_
      · show (wsPlus (',' :: ' ' :: year4chars y)).bind _ = none
        rw [wsPlus_nonspace _ _ (by decide)]
        rfl
      · rw [show d / 10 = 0 from by omega]
        exact num1_zero _
  · have hd9 : d ≤ 9 := by
      rcases Nat.lt_or_ge d 10 with h | h
      · omega
      · exact absurd (Or.inr h) hpad
    rw [show dayChars p d = [digitChar d] from by unfold dayChars; rw [if_neg hpad]]
    rw [show [digitChar d] ++ ',' :: ' ' :: year4chars y =
      digitChar d :: (',' :: ' ' :: year4chars y) from rfl]
    rw [wsPlus_space, dropSpaces_cons_nonspace _ _ (digitChar_not_space _)]
    simp only [Option.some_bind]
    refine (withNum_two_none _ _ _ d (',' :: ' ' :: year4chars y)
      (num2_second_nondigit 1 31 _ ',' _ (by decide)) (num1_digit d hd1 hd9 _)).trans ?_
    show (wsPlus (',' :: ' ' :: year4chars y)).bind _ = none
    rw [wsPlus_nonspace _ _ (by decide)]
    rfl

lemma parseFmt3_render4 (y m d : Nat) (hm1 : 1 ≤ m) (hm2 : m ≤ 12) :
    parseFmt3 (render4 y m d) = none := by
  unfold render4 parseFmt3
  rw [show pad2c m ++ '/' :: (pad2c d ++ '/' :: year4chars y) =
    digitChar (m / 10) :: digitChar (m % 10) :: ('/' :: (pad2c d ++ '/' :: year4chars y))
    from rfl]
  by_cases hm10 : 10 ≤ m
  · refine (withNum_backtrack _ _ _ m ('/' :: (pad2c d ++ '/' :: year4chars y)) (m / 10)
      (digitChar (m % 10) :: '/' :: (pad2c d ++ '/' :: year4chars y))
      (num2_pad2 1 12 m hm1 hm2 (by omega) _) ?_
      (num1_digit (m / 10) (by omega) (by omega) _)).trans ?_
    · show (wsPlus ('/' :: (pad2c d ++ '/' :: year4chars y))).bind _ = none
      rw [wsPlus_nonspace _ _ (by decide)]
      rfl
    · show (wsPlus (digitChar (m % 10) :: '/' :: (pad2c d ++ '/' :: year4chars y))).bind _ = none
      rw [wsPlus_nonspace _ _ (digitChar_not_space _)]
      rfl
  · refine withNum_backtrack_fail _ _ _ m ('/' :: (pad2c d ++ '/' :: year4chars y))
      (num2_pad2 1 12 m hm1 hm2 (by omega) _) ?_ ?_
    · show (wsPlus ('/' :: (pad2c d ++ '/' :: year4chars y))).bind _ = none
      rw [wsPlus_nonspace _ _ (by decide)]
      rfl
    · rw [show m / 10 = 0 from by omega]
      exact num1_zero _

lemma parseFmt3_render5 (y m d : Nat) (hy1 : 1000 ≤ y) (hy2 : y ≤ 9999) :
    parseFmt3 (render5 y m d) = none := by
  unfold render5 parseFmt3
  rw [show year4chars y ++ '-' :: (pad2c m ++ '-' :: pad2c d) =
    digitChar (y / 1000) :: digitChar (y / 100 % 10) ::
      (digitChar (y / 10 % 10) :: digitChar (y % 10) :: '-' :: (pad2c m ++ '-' :: pad2c d))
    from rfl]
  cases hn2 : num2 1 12 (digitChar (y / 1000) :: digitChar (y / 100 % 10) ::
      (digitChar (y / 10 % 10) :: digitChar (y % 10) :: '-' :: (pad2c m ++ '-' :: pad2c d))) with
  | some pr =>
    obtain ⟨n, r⟩ := pr
    obtain ⟨-, hr⟩ := num2_inv _ _ _ _ _ _ _ hn2
    subst hr
    refine (withNum_backtrack _ _ _ n _ (y / 1000)
      (digitChar (y / 100 % 10) ::
        (digitChar (y / 10 % 10) :: digitChar (y % 10) :: '-' :: (pad2c m ++ '-' :: pad2c d)))
      hn2 ?_ (num1_digit (y / 1000) (by omega) (by omega) _)).trans ?_
    · show (wsPlus (digitChar (y / 10 % 10) :: digitChar (y % 10) :: '-' ::
        (pad2c m ++ '-' :: pad2c d))).bind _ = none
      rw [wsPlus_nonspace _ _ (digitChar_not_space _)]
      rfl
    · show (wsPlus (digitChar (y / 100 % 10) ::
        (digitChar (y / 10 % 10) :: digitChar (y % 10) :: '-' ::
          (pad2c m ++ '-' :: pad2c d)))).bind _ = none
      rw [wsPlus_nonspace _ _ (digitChar_not_space _)]
      rfl
  | none =>
    refine (withNum_two_none _ _ _ (y / 1000)
      (digitChar (y / 100 % 10) ::
        (digitChar (y / 10 % 10) :: digitChar (y % 10) :: '-' :: (pad2c m ++ '-' :: pad2c d)))
      hn2 (num1_digit (y / 1000) (by omega) (by omega) _)).trans ?_
    show (wsPlus (digitChar (y / 100 % 10) ::
      (digitChar (y / 10 % 10) :: digitChar (y % 10) :: '-' ::
        (pad2c m ++ '-' :: pad2c d)))).bind _ = none
    rw [wsPlus_nonspace _ _ (digitChar_not_space _)]
    rfl

lemma parseFmt4_render5 (y m d : Nat) (hy1 : 1000 ≤ y) (hy2 : y ≤ 9999) :
    parseFmt4 (render5 y m d) = none := by
  unfold render5 parseFmt4
  rw [show year4chars y ++ '-' :: (pad2c m ++ '-' :: pad2c d) =
    digitChar (y / 1000) :: digitChar (y / 100 % 10) ::
      (digitChar (y / 10 % 10) :: digitChar (y % 10) :: '-' :: (pad2c m ++ '-' :: pad2c d))
    from rfl]
  cases hn2 : num2 1 12 (digitChar (y / 1000) :: digitChar (y / 100 % 10) ::
      (digitChar (y / 10 % 10) :: digitChar (y % 10) :: '-' :: (pad2c m ++ '-' :: pad2c d))) with
  | some pr =>
    obtain ⟨n, r⟩ := pr
    obtain ⟨-, hr⟩ := num2_inv _ _ _ _ _ _ _ hn2
    subst hr
    refine (withNum_backtrack _ _ _ n _ (y / 1000)
      (digitChar (y / 100 % 10) ::
        (digitChar (y / 10 % 10) :: digitChar (y % 10) :: '-' :: (pad2c m ++ '-' :: pad2c d)))
      hn2 ?_ (num1_digit (y / 1000) (by omega) (by omega) _)).trans ?_
    · show (lit '/' (digitChar (y / 10 % 10) :: digitChar (y % 10) :: '-' ::
        (pad2c m ++ '-' :: pad2c d))).bind _ = none
      rw [lit_ne '/' _ _ (digit_ne_char _ '/' (digitChar_isDigit _) (by decide))]
      rfl
    · show (lit '/' (digitChar (y / 100 % 10) ::
        (digitChar (y / 10 % 10) :: digitChar (y % 10) :: '-' ::
          (pad2c m ++ '-' :: pad2c d)))).bind _ = none
      rw [lit_ne '/' _ _ (digit_ne_char _ '/' (digitChar_isDigit _) (by decide))]
      rfl
  | none =>
    refine (withNum_two_none _ _ _ (y / 1000)
      (digitChar (y / 100 % 10) ::
        (digitChar (y / 10 % 10) :: digitChar (y % 10) :: '-' :: (pad2c m ++ '-' :: pad2c d)))
      hn2 (num1_digit (y / 1000) (by omega) (by omega) _)).trans ?_
    show (lit '/' (digitChar (y / 100 % 10) ::
      (digitChar (y / 10 % 10) :: digitChar (y % 10) :: '-' ::
        (pad2c m ++ '-' :: pad2c d)))).bind _ = none
    rw [lit_ne '/' _ _ (digit_ne_char _ '/' (digitChar_isDigit _) (by decide))]
    rfl

/-! ### Round C: stripping, format chain, top-level theorem -/

lemma pyStrip_eq_self_of (l : List Char) (a : Char) (A : List Char) (b : Char) (B : List Char)
    (hhead : l = a :: A) (hlast : l = B ++ [b])
    (ha : pyIsSpace a = false) (hb : pyIsSpace b = false) : pyStrip l = l := by
  unfold pyStrip
  rw [hhead, dropSpaces_cons_nonspace _ _ ha, ← hhead]
  rw [hlast, List.reverse_append]
  show (dropSpaces (b :: B.reverse)).reverse = B ++ [b]
  rw [dropSpaces_cons_nonspace _ _ hb, List.reverse_cons, List.reverse_reverse]

lemma monAbbrChars_head (m : Nat) (h1 : 1 ≤ m) (h2 : m ≤ 12) :
    ∃ c rest, monAbbrChars m = c :: rest ∧ pyIsSpace c = false := by
  interval_cases m <;> exact ⟨_, _, rfl, by decide⟩

lemma natCharsF_irrel (fuel1 : Nat) :
    ∀ fuel2 n, n < fuel1 → n < fuel2 → natCharsF fuel1 n = natCharsF fuel2 n := by
  induction fuel1 with
  | zero => intro fuel2 n h; omega
  | succ fuel1 ih =>
    intro fuel2 n h1 h2
    cases fuel2 with
    | zero => omega
    | succ fuel2 =>
      show (if n < 10 then [digitChar n] else natCharsF fuel1 (n / 10) ++ [digitChar (n % 10)]) =
        (if n < 10 then [digitChar n] else natCharsF fuel2 (n / 10) ++ [digitChar (n % 10)])
      by_cases h10 : n < 10
      · rw [if_pos h10, if_pos h10]
      · rw [if_neg h10, if_neg h10, ih fuel2 (n / 10) (by omega) (by omega)]

lemma natChars_eq (n : Nat) :
    natChars n = if n < 10 then [digitChar n] else natChars (n / 10) ++ [digitChar (n % 10)] := by
  show natCharsF (n + 1) n = _
  show (if n < 10 then [digitChar n] else natCharsF n (n / 10) ++ [digitChar (n % 10)]) = _
  by_cases h10 : n < 10
  · rw [if_pos h10, if_pos h10]
  · rw [if_neg h10, if_neg h10,
      natCharsF_irrel n (n / 10 + 1) (n / 10) (by omega) (by omega)]
    rfl

lemma natChars_year4 (y : Nat) (h1 : 1000 ≤ y) (h2 : y ≤ 9999) :
    natChars y = year4chars y := by
  rw [natChars_eq y, if_neg (by omega)]
  rw [natChars_eq (y / 10), if_neg (by omega)]
  rw [natChars_eq (y / 10 / 10), if_neg (by omega)]
  rw [natChars_eq (y / 10 / 10 / 10), if_pos (by omega)]
  rw [show y / 10 / 10 / 10 = y / 1000 from by omega,
    show y / 10 / 10 % 10 = y / 100 % 10 from by omega,
    show y / 10 % 10 = y / 10 % 10 from rfl]
  unfold year4chars
  simp

lemma daysInMonth_le_31 (y m : Nat) : daysInMonth y m ≤ 31 := by
  unfold daysInMonth
  split_ifs <;> omega

lemma chk_some (dt : PyDate) (h : validDate dt) : chk (some dt) = some dt := by
  show (if validDate dt then some dt else none) = some dt
  rw [if_pos h]

lemma chk_none : chk none = none := rfl

lemma validDate_mk (y m d : Nat) (hy1 : 1 ≤ y) (hy2 : y ≤ 9999) (hm1 : 1 ≤ m)
    (hm2 : m ≤ 12) (hd1 : 1 ≤ d) (hdm : d ≤ daysInMonth y m) :
    validDate ⟨y, m, d⟩ :=
  ⟨hy1, hy2, hm1, hm2, hd1, hdm⟩

lemma parseFmt1_render3 (y m d : Nat) : parseFmt1 (render3 y m d) = none :=
  parseFmt1_digit (digitChar (m / 10)) _ (digitChar_isDigit _)

lemma parseFmt2_render3 (y m d : Nat) : parseFmt2 (render3 y m d) = none :=
  parseFmt2_digit (digitChar (m / 10)) _ (digitChar_isDigit _)

lemma parseFmt1_render4 (y m d : Nat) : parseFmt1 (render4 y m d) = none :=
  parseFmt1_digit (digitChar (m / 10)) _ (digitChar_isDigit _)

lemma parseFmt2_render4 (y m d : Nat) : parseFmt2 (render4 y m d) = none :=
  parseFmt2_digit (digitChar (m / 10)) _ (digitChar_isDigit _)

lemma parseFmt1_render5 (y m d : Nat) : parseFmt1 (render5 y m d) = none :=
  parseFmt1_digit (digitChar (y / 1000)) _ (digitChar_isDigit _)

lemma parseFmt2_render5 (y m d : Nat) : parseFmt2 (render5 y m d) = none :=
  parseFmt2_digit (digitChar (y / 1000)) _ (digitChar_isDigit _)

lemma data_mk (l : List Char) : (String.mk l).data = l := rfl

lemma String_mk_ne_empty (c : Char) (l : List Char) : String.mk (c :: l) ≠ "" := by
  intro h
  have h2 : (c :: l : List Char) = [] := congrArg String.data h
  exact List.noConfusion h2

lemma pyStrip_render1 (p : Bool) (y m d : Nat) (hm1 : 1 ≤ m) (hm2 : m ≤ 12) :
    pyStrip (render1 p y m d) = render1 p y m d := by
  obtain ⟨c, rest, hmon, hc⟩ := monAbbrChars_head m hm1 hm2
  refine pyStrip_eq_self_of _ c (rest ++ ' ' :: (dayChars p d ++ ' ' :: year4chars y))
    (digitChar (y % 10))
    (monAbbrChars m ++ ' ' :: (dayChars p d ++
      [' ', digitChar (y / 1000), digitChar (y / 100 % 10), digitChar (y / 10 % 10)]))
    ?_ ?_ hc (digitChar_not_space _)
  · unfold render1
    rw [hmon]
    rfl
  · unfold render1 year4chars
    simp

lemma pyStrip_render2 (p : Bool) (y m d : Nat) (hm1 : 1 ≤ m) (hm2 : m ≤ 12) :
    pyStrip (render2 p y m d) = render2 p y m d := by
  obtain ⟨c, rest, hmon, hc⟩ := monAbbrChars_head m hm1 hm2
  refine pyStrip_eq_self_of _ c (rest ++ ' ' :: (dayChars p d ++ ',' :: ' ' :: year4chars y))
    (digitChar (y % 10))
    (monAbbrChars m ++ ' ' :: (dayChars p d ++
      [',', ' ', digitChar (y / 1000), digitChar (y / 100 % 10), digitChar (y / 10 % 10)]))
    ?_ ?_ hc (digitChar_not_space _)
  · unfold render2
    rw [hmon]
    rfl
  · unfold render2 year4chars
    simp

lemma pyStrip_render3 (y m d : Nat) :
    pyStrip (render3 y m d) = render3 y m d := by
  refine pyStrip_eq_self_of _ (digitChar (m / 10))
    (digitChar (m % 10) :: (' ' :: (pad2c d ++ ' ' :: year4chars y)))
    (digitChar (y % 10))
    (pad2c m ++ ' ' :: (pad2c d ++
      [' ', digitChar (y / 1000), digitChar (y / 100 % 10), digitChar (y / 10 % 10)]))
    rfl ?_ (digitChar_not_space _) (digitChar_not_space _)
  unfold render3 year4chars
  simp

lemma pyStrip_render4 (y m d : Nat) :
    pyStrip (render4 y m d) = render4 y m d := by
  refine pyStrip_eq_self_of _ (digitChar (m / 10))
    (digitChar (m % 10) :: ('/' :: (pad2c d ++ '/' :: year4chars y)))
    (digitChar (y % 10))
    (pad2c m ++ '/' :: (pad2c d ++
      ['/', digitChar (y / 1000), digitChar (y / 100 % 10), digitChar (y / 10 % 10)]))
    rfl ?_ (digitChar_not_space _) (digitChar_not_space _)
  unfold render4 year4chars
  simp

lemma pyStrip_render5 (y m d : Nat) :
    pyStrip (render5 y m d) = render5 y m d := by
  refine pyStrip_eq_self_of _ (digitChar (y / 1000))
    (digitChar (y / 100 % 10) :: digitChar (y / 10 % 10) :: digitChar (y % 10) ::
      ('-' :: (pad2c m ++ '-' :: pad2c d)))
    (digitChar (d % 10))
    (year4chars y ++ '-' :: (pad2c m ++ ['-', digitChar (d / 10)]))
    rfl ?_ (digitChar_not_space _) (digitChar_not_space _)
  unfold render5 pad2c
  simp

lemma normDateCore_render1 (p : Bool) (y m d : Nat) (hy1 : 1000 ≤ y) (hy2 : y ≤ 9999)
    (hm1 : 1 ≤ m) (hm2 : m ≤ 12) (hd1 : 1 ≤ d) (hdm : d ≤ daysInMonth y m) :
    normDateCore (render1 p y m d) = some ⟨y, m, d⟩ := by
  have hv : validDate ⟨y, m, d⟩ := validDate_mk y m d (by omega) hy2 hm1 hm2 hd1 hdm
  unfold normDateCore
  rw [parseFmt1_render1 p y m d hm1 hm2 hd1 (le_trans hdm (daysInMonth_le_31 y m)) hy2,
    chk_some _ hv]

lemma normDateCore_render2 (q : Bool) (y m d : Nat) (hy1 : 1000 ≤ y) (hy2 : y ≤ 9999)
    (hm1 : 1 ≤ m) (hm2 : m ≤ 12) (hd1 : 1 ≤ d) (hdm : d ≤ daysInMonth y m) :
    normDateCore (render2 q y m d) = some ⟨y, m, d⟩ := by
  have hd31 : d ≤ 31 := le_trans hdm (daysInMonth_le_31 y m)
  have hv : validDate ⟨y, m, d⟩ := validDate_mk y m d (by omega) hy2 hm1 hm2 hd1 hdm
  unfold normDateCore
  rw [parseFmt1_render2 q y m d hm1 hm2 hd1 hd31, chk_none,
    parseFmt2_render2 q y m d hm1 hm2 hd1 hd31 hy2, chk_some _ hv]

lemma normDateCore_render3 (y m d : Nat) (hy1 : 1000 ≤ y) (hy2 : y ≤ 9999)
    (hm1 : 1 ≤ m) (hm2 : m ≤ 12) (hd1 : 1 ≤ d) (hdm : d ≤ daysInMonth y m) :
    normDateCore (render3 y m d) = some ⟨y, m, d⟩ := by
  have hd31 : d ≤ 31 := le_trans hdm (daysInMonth_le_31 y m)
  have hv : validDate ⟨y, m, d⟩ := validDate_mk y m d (by omega) hy2 hm1 hm2 hd1 hdm
  unfold normDateCore
  rw [parseFmt1_render3 y m d, parseFmt2_render3 y m d, chk_none,
    parseFmt3_render3 y m d hm1 hm2 hd1 hd31 hy2, chk_some _ hv]

lemma normDateCore_render4 (y m d : Nat) (hy1 : 1000 ≤ y) (hy2 : y ≤ 9999)
    (hm1 : 1 ≤ m) (hm2 : m ≤ 12) (hd1 : 1 ≤ d) (hdm : d ≤ daysInMonth y m) :
    normDateCore (render4 y m d) = some ⟨y, m, d⟩ := by
  have hd31 : d ≤ 31 := le_trans hdm (daysInMonth_le_31 y m)
  have hv : validDate ⟨y, m, d⟩ := validDate_mk y m d (by omega) hy2 hm1 hm2 hd1 hdm
  unfold normDateCore
  rw [parseFmt1_render4 y m d, parseFmt2_render4 y m d, parseFmt3_render4 y m d hm1 hm2,
    chk_none, parseFmt4_render4 y m d hm1 hm2 hd1 hd31 hy2, chk_some _ hv]

lemma normDateCore_render5 (y m d : Nat) (hy1 : 1000 ≤ y) (hy2 : y ≤ 9999)
    (hm1 : 1 ≤ m) (hm2 : m ≤ 12) (hd1 : 1 ≤ d) (hdm : d ≤ daysInMonth y m) :
    normDateCore (render5 y m d) = some ⟨y, m, d⟩ := by
  have hd31 : d ≤ 31 := le_trans hdm (daysInMonth_le_31 y m)
  have hv : validDate ⟨y, m, d⟩ := validDate_mk y m d (by omega) hy2 hm1 hm2 hd1 hdm
  unfold normDateCore
  rw [parseFmt1_render5 y m d, parseFmt2_render5 y m d, parseFmt3_render5 y m d hy1 hy2,
    parseFmt4_render5 y m d hy1 hy2, chk_none,
    parseFmt5_render5 y m d hm1 hm2 hd1 hd31 hy2, chk_some _ hv]

/-- C2: every in-range date rendered in any of the five accepted layouts
(`"Mon D YYYY"` with or without day padding, `"Mon D, YYYY"` with or without
padding, `"MM DD YYYY"`, `"MM/DD/YYYY"`, `"YYYY-MM-DD"`) is normalized by
`norm_date` to the canonical `"%b %d, %Y"` string: abbreviated month, a comma,
a zero-padded two-digit day and the four-digit year. -/
theorem norm_date_five_formats_canonical (p q : Bool) (y m d : Nat)
    (hy1 : 1000 ≤ y) (hy2 : y ≤ 9999) (hm1 : 1 ≤ m) (hm2 : m ≤ 12)
    (hd1 : 1 ≤ d) (hdm : d ≤ daysInMonth y m) :
    norm_date (String.mk (render1 p y m d)) = String.mk (formatDateChars ⟨y, m, d⟩) ∧
    norm_date (String.mk (render2 q y m d)) = String.mk (formatDateChars ⟨y, m, d⟩) ∧
    norm_date (String.mk (render3 y m d)) = String.mk (formatDateChars ⟨y, m, d⟩) ∧
    norm_date (String.mk (render4 y m d)) = String.mk (formatDateChars ⟨y, m, d⟩) ∧
    norm_date (String.mk (render5 y m d)) = String.mk (formatDateChars ⟨y, m, d⟩) ∧
    formatDateChars ⟨y, m, d⟩ =
      monAbbrChars m ++ ' ' :: pad2c d ++ ',' :: ' ' :: year4chars y := by
  obtain ⟨c, rest, hmon, hc⟩ := monAbbrChars_head m hm1 hm2
  have hhead1 : render1 p y m d = c :: (rest ++ ' ' :: (dayChars p d ++ ' ' :: year4chars y)) := by
    unfold render1
    rw [hmon]
    rfl
  have hhead2 : render2 q y m d =
      c :: (rest ++ ' ' :: (dayChars q d ++ ',' :: ' ' :: year4chars y)) := by
    unfold render2
    rw [hmon]
    rfl
  have hne1 : String.mk (render1 p y m d) ≠ "" := by
    rw [hhead1]
    exact String_mk_ne_empty _ _
  have hne2 : String.mk (render2 q y m d) ≠ "" := by
    rw [hhead2]
    exact String_mk_ne_empty _ _
  have h1 : norm_date (String.mk (render1 p y m d)) = String.mk (formatDateChars ⟨y, m, d⟩) := by
    unfold norm_date
    rw [if_neg hne1, data_mk, pyStrip_render1 p y m d hm1 hm2,
      normDateCore_render1 p y m d hy1 hy2 hm1 hm2 hd1 hdm]
  have h2 : norm_date (String.mk (render2 q y m d)) = String.mk (formatDateChars ⟨y, m, d⟩) := by
    unfold norm_date
    rw [if_neg hne2, data_mk, pyStrip_render2 q y m d hm1 hm2,
      normDateCore_render2 q y m d hy1 hy2 hm1 hm2 hd1 hdm]
  have hne3 : String.mk (render3 y m d) ≠ "" := String_mk_ne_empty _ _
  have hne4 : String.mk (render4 y m d) ≠ "" := String_mk_ne_empty _ _
  have hne5 : String.mk (render5 y m d) ≠ "" := String_mk_ne_empty _ _
  have h3 : norm_date (String.mk (render3 y m d)) = String.mk (formatDateChars ⟨y, m, d⟩) := by
    unfold norm_date
    rw [if_neg hne3, data_mk, pyStrip_render3 y m d,
      normDateCore_render3 y m d hy1 hy2 hm1 hm2 hd1 hdm]
  have h4 : norm_date (String.mk (render4 y m d)) = String.mk (formatDateChars ⟨y, m, d⟩) := by
    unfold norm_date
    rw [if_neg hne4, data_mk, pyStrip_render4 y m d,
      normDateCore_render4 y m d hy1 hy2 hm1 hm2 hd1 hdm]
  have h5 : norm_date (String.mk (render5 y m d)) = String.mk (formatDateChars ⟨y, m, d⟩) := by
    unfold norm_date
    rw [if_neg hne5, data_mk, pyStrip_render5 y m d,
      normDateCore_render5 y m d hy1 hy2 hm1 hm2 hd1 hdm]
  have h6 : formatDateChars ⟨y, m, d⟩ =
      monAbbrChars m ++ ' ' :: pad2c d ++ ',' :: ' ' :: year4chars y := by
    show monAbbrChars m ++ ' ' :: pad2c d ++ ',' :: ' ' :: natChars y = _
    rw [natChars_year4 y hy1 hy2]
  exact ⟨h1, h2, h3, h4, h5, h6⟩

/-- Witness for C2 at Nov 7, 2025 in all five layouts. -/
theorem norm_date_five_formats_canonical_witness :
    norm_date "Nov 7 2025" = "Nov 07, 2025" ∧ norm_date "Nov 07, 2025" = "Nov 07, 2025" ∧
    norm_date "11 07 2025" = "Nov 07, 2025" ∧ norm_date "11/07/2025" = "Nov 07, 2025" ∧
    norm_date "2025-11-07" = "Nov 07, 2025" := by
  obtain ⟨h1, h2, h3, h4, h5, h6⟩ := norm_date_five_formats_canonical false true 2025 11 7
    (by decide) (by decide) (by decide) (by decide) (by decide) (by decide)
  refine ⟨?_, ?_, ?_, ?_, ?_⟩
  · rw [show ("Nov 7 2025" : String) = String.mk (render1 false 2025 11 7) from by decide, h1]
    decide
  · rw [show ("Nov 07, 2025" : String) = String.mk (render2 true 2025 11 7) from by decide, h2]
    decide
  · rw [show ("11 07 2025" : String) = String.mk (render3 2025 11 7) from by decide, h3]
    decide
  · rw [show ("11/07/2025" : String) = String.mk (render4 2025 11 7) from by decide, h4]
    decide
  · rw [show ("2025-11-07" : String) = String.mk (render5 2025 11 7) from by decide, h5]
    decide
